import Mathlib

/-!
Verification development for the `TimeViewFeature` widget
(`src/features/time_view.py`): a shallow embedding of its buffer
management, demultiplexing, rate estimation, tick generation and plot
refresh logic, together with theorems settling the specification's claims.

Python floats are modelled as exact rationals extended with the three
non-finite values; Python `deque(maxlen=c)` is modelled as a list plus a
capacity, with eviction expressed by dropping from the front.  Wall-clock
instants (`datetime`) are modelled as integer microseconds on a proleptic
Gregorian time line, which is all that parsing `%Y-%m-%dT%H:%M:%S.%f`
strings and formatting `%H:%M:%S` labels require.
-/

/-- A Python float: a finite rational or one of the non-finite values. -/
inductive PyFloat
  | nan : PyFloat
  | inf : PyFloat
  | ninf : PyFloat
  | num (q : ℚ) : PyFloat
deriving DecidableEq

/-- `np.isfinite` on a modelled float. -/
def PyFloat.isFinite : PyFloat → Bool
  | .num _ => true
  | _ => false

/-- The rational carried by a finite float (junk value 0 otherwise; only
used under an all-finite guard, mirroring the source). -/
def PyFloat.toRat : PyFloat → ℚ
  | .num q => q
  | _ => 0

/-- The last `n` entries of a list (Python `l[-n:]` for `n > 0`), newest
last. -/
def lastN (n : ℕ) (l : List α) : List α := l.drop (l.length - n)

/-- A bounded FIFO modelling Python's `collections.deque(maxlen = cap)`. -/
structure RingBuf (α : Type) where
  data : List α
  cap : ℕ
deriving DecidableEq

/-- `deque.append`: push right, evicting the oldest (leftmost) entry when
the buffer is at capacity. -/
def RingBuf.append (r : RingBuf α) (x : α) : RingBuf α :=
  ⟨lastN r.cap (r.data ++ [x]), r.cap⟩

/-- `deque(iterable, maxlen = cap)`: construct by appending each element
in turn, with the same eviction rule. -/
def RingBuf.ofList (cap : ℕ) (l : List α) : RingBuf α :=
  l.foldl RingBuf.append ⟨[], cap⟩

/-- Python `range(start, stop, step)` for a positive step. -/
def pyRange (start stop step : ℕ) : List ℕ :=
  (List.range ((stop - start + step - 1) / step)).map (fun k => start + step * k)

/-- Python extended slicing `l[::4]`. -/
def every4th : List α → List α
  | [] => []
  | x :: rest => x :: every4th (rest.drop 3)
termination_by l => l.length
decreasing_by simp [List.length_drop]; omega

/-- Python `int()` applied to a float: truncation toward zero. -/
def pyInt (q : ℚ) : ℤ := if 0 ≤ q then ⌊q⌋ else ⌈q⌉

/-- `np.linspace(a, b, n)` with both endpoints included (`n ≥ 2` in every
call site of the source). -/
def npLinspace (a b : ℚ) (n : ℕ) : List ℚ :=
  match n with
  | 0 => []
  | 1 => [a]
  | _ => (List.range n).map (fun i => a + i * (b - a) / ((n : ℚ) - 1))

/-- Python `max` over a nonempty list (junk value 0 on `[]`). -/
def listMax : List ℚ → ℚ
  | [] => 0
  | h :: t => t.foldl max h

/-- Python `min` over a nonempty list (junk value 0 on `[]`). -/
def listMin : List ℚ → ℚ
  | [] => 0
  | h :: t => t.foldl min h

/-! ### Datetime model

`datetime` instants are integer microseconds since 0001-01-01 00:00:00 on
the proleptic Gregorian calendar (the calendar `datetime.strptime` uses);
only differences and the time-of-day fields are ever consumed. -/

/-- Split a character list at every occurrence of `sep`
(Python `str.split(sep)`). -/
def splitOnChar (sep : Char) : List Char → List (List Char)
  | [] => [[]]
  | c :: rest =>
    let r := splitOnChar sep rest
    if c = sep then [] :: r
    else
      match r with
      | h :: t => (c :: h) :: t
      | [] => [[c]]

/-- Read a field of `minLen`–`maxLen` decimal digits. -/
def readDigits (cs : List Char) (minLen maxLen : ℕ) : Option ℕ :=
  if minLen ≤ cs.length ∧ cs.length ≤ maxLen ∧ cs.all Char.isDigit then
    some (cs.foldl (fun a c => a * 10 + (c.toNat - 48)) 0)
  else none

/-- Gregorian leap-year rule. -/
def isLeap (y : ℕ) : Bool := y % 4 = 0 && (y % 100 ≠ 0 || y % 400 = 0)

/-- Length of month `m` (1-based) in a year with leap flag `lp`. -/
def monthLen (lp : Bool) (m : ℕ) : ℕ :=
  match m with
  | 1 => 31 | 2 => if lp then 29 else 28 | 3 => 31 | 4 => 30
  | 5 => 31 | 6 => 30 | 7 => 31 | 8 => 31
  | 9 => 30 | 10 => 31 | 11 => 30 | 12 => 31
  | _ => 0

/-- Days in the year strictly before month `m`. -/
def daysBeforeMonth (lp : Bool) (m : ℕ) : ℕ :=
  (List.range' 1 (m - 1)).foldl (fun a j => a + monthLen lp j) 0

/-- Proleptic-Gregorian ordinal of a date (0001-01-01 has ordinal 1),
as in Python's `datetime.toordinal`. -/
def toOrdinal (y m d : ℕ) : ℕ :=
  365 * (y - 1) + (y - 1) / 4 - (y - 1) / 100 + (y - 1) / 400 +
    daysBeforeMonth (isLeap y) m + d

/-- `datetime.strptime(s, "%Y-%m-%dT%H:%M:%S.%f")`, returning the instant
in microseconds, or `none` when the string does not match the format
(where the source raises `ValueError`). -/
def parseTimestamp (s : String) : Option ℤ :=
  match splitOnChar 'T' s.data with
  | [datePart, timePart] =>
    match splitOnChar '-' datePart, splitOnChar ':' timePart with
    | [ys, ms, ds], [hs, mins, secPart] =>
      match splitOnChar '.' secPart with
      | [ss, fs] =>
        match readDigits ys 4 4, readDigits ms 1 2, readDigits ds 1 2,
              readDigits hs 1 2, readDigits mins 1 2, readDigits ss 1 2,
              readDigits fs 1 6 with
        | some y, some mo, some d, some h, some mi, some sec, some fr =>
          if 1 ≤ y ∧ y ≤ 9999 ∧ 1 ≤ mo ∧ mo ≤ 12 ∧ 1 ≤ d ∧
              d ≤ monthLen (isLeap y) mo ∧ h ≤ 23 ∧ mi ≤ 59 ∧ sec ≤ 59 then
            some (((toOrdinal y mo d : ℤ) - 1) * 86400000000 +
              ((h * 3600 + mi * 60 + sec) * 1000000 + fr * 10 ^ (6 - fs.length) : ℕ))
          else none
        | _, _, _, _, _, _, _ => none
      | _ => none
    | _, _ => none
  | _ => none

/-- `dt + timedelta(seconds = q)`, rounded to the microsecond. -/
def addSeconds (dt : ℤ) (q : ℚ) : ℤ := dt + round (q * 1000000)

/-- The decimal digit character for `n % 10`. -/
def digitChar (n : ℕ) : Char := Char.ofNat (48 + n % 10)

/-- Two-digit zero-padded decimal rendering (for values below 100). -/
def pad2 (n : ℕ) : List Char := [digitChar (n / 10), digitChar n]

/-- Three-digit zero-padded decimal rendering (for values below 1000). -/
def pad3 (n : ℕ) : List Char := [digitChar (n / 100), digitChar (n / 10), digitChar n]

/-- `dt.strftime("%H:%M:%S:") + f"{dt.microsecond // 1000 :03d}"`:
the `HH:MM:SS:mmm` tick-label format of the source. -/
def formatHMSms (dt : ℤ) : String :=
  let usDay := (dt % 86400000000).toNat
  let h := usDay / 3600000000
  let mi := usDay / 60000000 % 60
  let s := usDay / 1000000 % 60
  let ms := usDay % 1000000 / 1000
  String.mk (pad2 h ++ ':' :: pad2 mi ++ ':' :: pad2 s ++ ':' :: pad3 ms)

/-! ### Widget state and operations

The mutable state of `TimeViewFeature` that the buffer/rate logic touches.
The chart axes' x-limits live in matplotlib objects; they enter the model
as parameters of the operations that read them.  `datetime.now()` enters
`on_data_received` as a pair of parameters: the instant in seconds and its
`isoformat()` rendering. -/

structure TVState where
  projectName : String
  mqttTag : Option String
  b0 : RingBuf PyFloat
  b1 : RingBuf PyFloat
  b2 : RingBuf PyFloat
  b3 : RingBuf PyFloat
  ts : RingBuf String
  dataRate : ℚ
  lastDataTime : Option ℚ
deriving DecidableEq

/-- `__init__`: four empty channel rings of capacity 4096, a timestamp
ring of capacity `4096 * 4`, data rate 1.0, no previous batch. -/
def initState (project : String) : TVState :=
  { projectName := project
    mqttTag := none
    b0 := ⟨[], 4096⟩
    b1 := ⟨[], 4096⟩
    b2 := ⟨[], 4096⟩
    b3 := ⟨[], 4096⟩
    ts := ⟨[], 4096 * 4⟩
    dataRate := 1
    lastDataTime := none }

/-- One iteration of the loop in `split_and_store_values`: when
`i + 3 < len(values)`, append `values[i..i+3]` to channels 0–3 and extend
the timestamp ring with four copies of the timestamp. -/
def storeGroup (vs : List PyFloat) (t : String) (st : TVState) (i : ℕ) : TVState :=
  if i + 3 < vs.length then
    { st with
      b0 := st.b0.append (vs.getD i PyFloat.nan)
      b1 := st.b1.append (vs.getD (i + 1) PyFloat.nan)
      b2 := st.b2.append (vs.getD (i + 2) PyFloat.nan)
      b3 := st.b3.append (vs.getD (i + 3) PyFloat.nan)
      ts := ((((st.ts.append t).append t).append t).append t) }
  else st

/-- `split_and_store_values(values, timestamp)`: iterate `storeGroup` over
`range(10, min(len(values), 4096 * 4), 4)`. -/
def split_and_store_values (st : TVState) (values : List PyFloat) (timestamp : String) : TVState :=
  (pyRange 10 (min values.length (4096 * 4)) 4).foldl (storeGroup values timestamp) st

/-- `new_buffer_size = max(int(self.data_rate * window_size * 2), 100)`. -/
def targetBufferSize (rate window_size : ℚ) : ℕ :=
  (max (pyInt (rate * window_size * 2)) 100).toNat

/-- `adjust_buffer_size`, with the current window width (from
`axes[0].get_xlim()`) passed in: when the data rate is positive, compute
`max(int(rate * width * 2), 100)` and, if it differs from channel 0's
current capacity, rebuild all four channel rings at that capacity and the
timestamp ring at four times it. -/
def adjust_buffer_size (st : TVState) (window_size : ℚ) : TVState :=
  if 0 < st.dataRate then
    if targetBufferSize st.dataRate window_size ≠ st.b0.cap then
      { st with
        b0 := RingBuf.ofList (targetBufferSize st.dataRate window_size) st.b0.data
        b1 := RingBuf.ofList (targetBufferSize st.dataRate window_size) st.b1.data
        b2 := RingBuf.ofList (targetBufferSize st.dataRate window_size) st.b2.data
        b3 := RingBuf.ofList (targetBufferSize st.dataRate window_size) st.b3.data
        ts := RingBuf.ofList (targetBufferSize st.dataRate window_size * 4) st.ts.data }
    else st
  else st

/-- The part of `setup_time_view_plot` before re-seeding: select the tag,
clear every buffer (capacities kept), and reset the rate state. -/
def clearAndSelect (st : TVState) (tag : String) : TVState :=
  { st with
    mqttTag := some tag
    b0 := ⟨[], st.b0.cap⟩
    b1 := ⟨[], st.b1.cap⟩
    b2 := ⟨[], st.b2.cap⟩
    b3 := ⟨[], st.b3.cap⟩
    ts := ⟨[], st.ts.cap⟩
    lastDataTime := none
    dataRate := 1 }

/-- `setup_time_view_plot(tag_name)` with the historical store's reply
passed in as `hist` (a list of `(values, timestamp)` entries): guard
against an invalid selection, then select the tag, clear every buffer,
reset the rate state, and pre-seed from the last two historical entries. -/
def setup_time_view_plot (st : TVState) (tag : String)
    (hist : List (List PyFloat × String)) : TVState :=
  if st.projectName = "" ∨ tag = "" ∨ tag = "No Tags Available" then st
  else
    (hist.drop (hist.length - 2)).foldl
      (fun s e => split_and_store_values s e.1 e.2) (clearAndSelect st tag)

/-- `on_data_received(tag_name, values)` at wall-clock instant `now`
(seconds) whose `isoformat()` is `nowIso`: ignore a mismatched tag;
otherwise update the rate estimate from the elapsed time, record the
receipt time, and demultiplex the batch. -/
def on_data_received (st : TVState) (tag_name : String) (values : List PyFloat)
    (now : ℚ) (nowIso : String) : TVState :=
  if st.mqttTag = some tag_name then
    let st1 :=
      match st.lastDataTime with
      | some prev =>
        if 0 < now - prev then
          { st with dataRate := (values.length : ℚ) / (now - prev) / 4 }
        else st
      | none => st
    let st2 := { st1 with lastDataTime := some now }
    split_and_store_values st2 values nowIso
  else st

/-- `min(current_buffer_size, int(data_rate * window_size))`, clamped to
at least 2. -/
def samples_per_window (rate w : ℚ) (cbs : ℕ) : ℕ :=
  (max (min (cbs : ℤ) (pyInt (rate * w))) 2).toNat

/-- `np.arange(16390, 46538, 5000)`: the fixed fallback tick sequence. -/
def fallbackTicks : List ℚ := [16390, 21390, 26390, 31390, 36390, 41390, 46390]

/-- The tick-emitting `while current <= y_max` loop of `generate_y_ticks`
(guarded by `0 < step`, which holds at the call site, so that the
recursion terminates). -/
def tickLoop (ymax step current : ℚ) : List ℚ :=
  if h : 0 < step ∧ current ≤ ymax then current :: tickLoop ymax step (current + step)
  else []
termination_by (⌊(ymax - current) / step⌋ + 1).toNat
decreasing_by
  obtain ⟨hs, hc⟩ := h
  have h1 : (ymax - (current + step)) / step = (ymax - current) / step - 1 := by
    field_simp
    ring
  have h2 : (0 : ℤ) ≤ ⌊(ymax - current) / step⌋ :=
    Int.floor_nonneg.mpr (div_nonneg (by linarith) hs.le)
  rw [h1, Int.floor_sub_one]
  omega

/-- `generate_y_ticks(values)`. -/
def generate_y_ticks (values : List PyFloat) : List ℚ :=
  if values = [] ∨ ¬ values.all PyFloat.isFinite then fallbackTicks
  else
    let qs := values.map PyFloat.toRat
    let ymax0 := listMax qs
    let ymin0 := listMin qs
    let padding := if ymax0 ≠ ymin0 then (ymax0 - ymin0) * (1 / 10) else 5000
    let ymax := ymax0 + padding
    let ymin := ymin0 - padding
    let rangeVal := ymax - ymin
    let step0 := max (rangeVal / 10) 1
    let step : ℚ := (⌈step0 / 500⌉ : ℤ) * 500
    tickLoop ymax step ((⌊ymin / step⌋ : ℤ) * step)

/-- What one iteration of the per-channel loop in
`update_time_view_plot` pushes into matplotlib: line data, y-limits,
y-ticks, and (when timestamps were available) x-tick positions and
labels. -/
structure ChannelRender where
  linePoints : List ℚ
  lineValues : List PyFloat
  yLim : ℚ × ℚ
  yTicks : List ℚ
  xTicks : Option (List ℚ)
  xTickLabels : Option (List String)
deriving DecidableEq

/-- The error carried out of a plot refresh when `datetime.strptime`
fails (the source catches nothing in this module). -/
def strptimeErr : String := "ValueError: time data does not match format"

/-- One iteration of the `for i, (ax, line) in ...` loop of
`update_time_view_plot`, for one channel buffer `buf` and that axis's
x-limits. `cbs` is `current_buffer_size` (taken before the buffers were
resized, as in the source). -/
def update_step (st : TVState) (xlim : ℚ × ℚ) (buf : RingBuf PyFloat)
    (cbs : ℕ) : Except String ChannelRender :=
  let w := xlim.2 - xlim.1
  let spw := samples_per_window st.dataRate w cbs
  let windowValues := lastN spw buf.data
  let windowTimestamps := every4th (lastN (spw * 4) st.ts.data)
  if windowValues = [] ∨ ¬ windowValues.all PyFloat.isFinite then
    Except.ok ⟨[], [], (16390, 46537), generate_y_ticks [], none, none⟩
  else
    let qs := windowValues.map PyFloat.toRat
    let ymax := listMax qs
    let ymin := listMin qs
    let padding := if ymax ≠ ymin then (ymax - ymin) * (1 / 10) else 5000
    let tp := npLinspace xlim.1 xlim.2 spw
    let yl := (ymin - padding, ymax + padding)
    let yt := generate_y_ticks windowValues
    match windowTimestamps.getLast? with
    | none => Except.ok ⟨tp, windowValues, yl, yt, none, none⟩
    | some sLast =>
      match parseTimestamp sLast with
      | none => Except.error strptimeErr
      | some dt =>
        let tickPositions := npLinspace xlim.1 xlim.2 10
        let labels := tickPositions.map
          (fun tick => formatHMSms (addSeconds dt (tick * w - w)))
        Except.ok ⟨tp, windowValues, yl, yt, some tickPositions, some labels⟩

/-- `update_time_view_plot`, with each axis's current x-limits passed in.
Returns the mutated state together with the four channels' render
outputs, or the uncaught `strptime` error. -/
def update_time_view_plot (st : TVState) (xl0 xl1 xl2 xl3 : ℚ × ℚ) :
    Except String (TVState × List ChannelRender) :=
  if st.projectName = "" ∨ st.mqttTag = none then Except.ok (st, [])
  else if st.b0.data.length < 2 then Except.ok (st, [])
  else
    let cbs := st.b0.data.length
    let st1 := adjust_buffer_size st (xl0.2 - xl0.1)
    do
      let r0 ← update_step st1 xl0 st1.b0 cbs
      let r1 ← update_step st1 xl1 st1.b1 cbs
      let r2 ← update_step st1 xl2 st1.b2 cbs
      let r3 ← update_step st1 xl3 st1.b3 cbs
      Except.ok (st1, [r0, r1, r2, r3])

/-- The state mutation a plot refresh performs (the buffer resize done by
`adjust_buffer_size`; everything else the refresh touches is matplotlib
state). -/
def updateState (st : TVState) (xl0 : ℚ × ℚ) : TVState :=
  if st.projectName = "" ∨ st.mqttTag = none then st
  else if st.b0.data.length < 2 then st
  else adjust_buffer_size st (xl0.2 - xl0.1)

/-- The states reachable from widget construction through any
interleaving of tag switches, feed ingests, buffer resizes and plot
refreshes (with arbitrary historical data, batches, clock readings and
axis limits at each step). -/
inductive Reach : TVState → Prop
  | init (project : String) : Reach (initState project)
  | setup (st : TVState) (tag : String) (hist : List (List PyFloat × String)) :
      Reach st → Reach (setup_time_view_plot st tag hist)
  | ingest (st : TVState) (tag : String) (vs : List PyFloat) (now : ℚ) (iso : String) :
      Reach st → Reach (on_data_received st tag vs now iso)
  | adjust (st : TVState) (w : ℚ) : Reach st → Reach (adjust_buffer_size st w)
  | update (st : TVState) (xl0 : ℚ × ℚ) : Reach st → Reach (updateState st xl0)

/-! ### Definitions written from the claims' words (for comparison) -/

/-- Modelled from claim C1's words: channel `c` receives exactly the
values at positions `10 + 4k + c`, in increasing `k`, for each `k` with
`10 + 4k + 3 < min(L, capacity * 4)` where `capacity` is the channel
ring's current capacity. -/
def claimDemuxChannel (vs : List PyFloat) (cap : ℕ) (c : ℕ) : List PyFloat :=
  ((List.range (min vs.length (cap * 4))).filter
      (fun k => 10 + 4 * k + 3 < min vs.length (cap * 4))).map
    (fun k => vs.getD (10 + 4 * k + c) PyFloat.nan)

/-- Modelled from claim C6's words: each of the 10 evenly spaced x-ticks
is labelled by offsetting the latest sample's timestamp by
`(tick_fraction * window_width - window_width)` seconds, where
`tick_fraction` is the tick's fractional position within the window. -/
def claimXTickLabels (xlim : ℚ × ℚ) (dt : ℤ) : List String :=
  let w := xlim.2 - xlim.1
  (npLinspace xlim.1 xlim.2 10).map
    (fun tick => formatHMSms (addSeconds dt (((tick - xlim.1) / w) * w - w)))

/-- Extract the labels a per-channel refresh produced: `none` when the
refresh raised, `some labels?` when it returned. -/
def labelsOf (e : Except String ChannelRender) : Option (Option (List String)) :=
  match e with
  | .ok r => some r.xTickLabels
  | .error _ => none

/-- The group start indices the `split_and_store_values` loop actually
consumes: `range(10, min(L, 4096 * 4), 4)` restricted by the
`i + 3 < L` guard. -/
def validStarts (L : ℕ) : List ℕ :=
  (pyRange 10 (min L (4096 * 4)) 4).filter (fun i => i + 3 < L)

/-- The buffer well-formedness facts preserved by every operation:
lengths bounded by capacities, the four channel rings in lockstep
(equal lengths, equal capacities), and the timestamp ring at exactly
four entries and four capacity slots per channel entry. -/
def BufInv (st : TVState) : Prop :=
  st.b0.data.length ≤ st.b0.cap ∧ st.b1.data.length ≤ st.b1.cap ∧
  st.b2.data.length ≤ st.b2.cap ∧ st.b3.data.length ≤ st.b3.cap ∧
  st.ts.data.length ≤ st.ts.cap ∧
  st.b1.data.length = st.b0.data.length ∧
  st.b2.data.length = st.b0.data.length ∧
  st.b3.data.length = st.b0.data.length ∧
  st.b1.cap = st.b0.cap ∧ st.b2.cap = st.b0.cap ∧ st.b3.cap = st.b0.cap ∧
  st.ts.data.length = 4 * st.b0.data.length ∧ st.ts.cap = 4 * st.b0.cap

/-! ### Ring-buffer lemmas -/

theorem lastN_of_le {l : List α} {n : ℕ} (h : l.length ≤ n) : lastN n l = l := by
  unfold lastN
  rw [Nat.sub_eq_zero_of_le h, List.drop_zero]

theorem lastN_length (n : ℕ) (l : List α) : (lastN n l).length = min l.length n := by
  unfold lastN
  rw [List.length_drop]
  omega

theorem lastN_suffix (n : ℕ) (l : List α) : lastN n l <:+ l := List.drop_suffix _ _

theorem lastN_subset (n : ℕ) (l : List α) : lastN n l ⊆ l := List.drop_subset _ _

/-- Truncating to the last `c` entries, appending, and truncating again is
the same as appending and truncating once. -/
theorem lastN_absorb (c : ℕ) (l m : List α) :
    lastN c (lastN c l ++ m) = lastN c (l ++ m) := by
  rcases le_or_lt l.length c with h | h
  · rw [lastN_of_le h]
  · unfold lastN
    have hlen : (List.drop (l.length - c) l).length = c := by
      rw [List.length_drop]; omega
    rw [List.length_append, List.length_append, hlen,
      show c + m.length - c = m.length from by omega,
      ← List.drop_append_of_le_length (show l.length - c ≤ l.length from by omega),
      List.drop_drop]
    congr 1
    omega

theorem RingBuf.append_length_le (r : RingBuf α) (x : α) :
    (r.append x).data.length ≤ r.cap := by
  show (lastN r.cap (r.data ++ [x])).length ≤ r.cap
  rw [lastN_length]
  omega

/-- Folding `append` over a list of new elements keeps the last `cap`
entries of old-contents-plus-new-elements. -/
theorem RingBuf.foldl_append_eq :
    ∀ (xs : List α) (r : RingBuf α), r.data.length ≤ r.cap →
      xs.foldl RingBuf.append r = ⟨lastN r.cap (r.data ++ xs), r.cap⟩
  | [], r, h => by
    simp only [List.foldl_nil, List.append_nil, lastN_of_le h]
  | x :: xs, r, h => by
    rw [List.foldl_cons,
      RingBuf.foldl_append_eq xs (r.append x) (r.append_length_le x)]
    show (⟨lastN r.cap (lastN r.cap (r.data ++ [x]) ++ xs), r.cap⟩ : RingBuf α) = _
    rw [lastN_absorb, List.append_assoc, List.singleton_append]

/-- `deque(iterable, maxlen = cap)` keeps the last `cap` elements. -/
theorem RingBuf.ofList_eq (cap : ℕ) (l : List α) :
    RingBuf.ofList cap l = ⟨lastN cap l, cap⟩ := by
  unfold RingBuf.ofList
  rw [RingBuf.foldl_append_eq l ⟨[], cap⟩ (by simp)]
  simp

/-- An append at full (positive) capacity evicts exactly the oldest
entry. -/
theorem RingBuf.append_full (r : RingBuf α) (x : α)
    (hlen : r.data.length = r.cap) (hpos : 0 < r.cap) :
    (r.append x).data = r.data.tail ++ [x] := by
  show lastN r.cap (r.data ++ [x]) = r.data.tail ++ [x]
  unfold lastN
  rw [List.length_append,
    show r.data.length + [x].length - r.cap = 1 from by simp; omega,
    List.drop_append_of_le_length (by omega), List.drop_one]

/-! ### Demultiplexing closed forms -/

theorem foldl_storeGroup_b0 (vs : List PyFloat) (t : String) :
    ∀ (idxs : List ℕ) (st : TVState),
      (idxs.foldl (storeGroup vs t) st).b0 =
        ((idxs.filter (fun i => i + 3 < vs.length)).map
          (fun i => vs.getD i PyFloat.nan)).foldl RingBuf.append st.b0
  | [], _ => rfl
  | i :: idxs, st => by
    rw [List.foldl_cons]
    simp only [List.filter_cons, decide_eq_true_eq]
    by_cases h : i + 3 < vs.length
    · rw [if_pos h, List.map_cons, List.foldl_cons, foldl_storeGroup_b0 vs t idxs]
      congr 1
      unfold storeGroup
      rw [if_pos h]
    · rw [if_neg h, foldl_storeGroup_b0 vs t idxs]
      congr 1
      unfold storeGroup
      rw [if_neg h]

theorem foldl_storeGroup_b1 (vs : List PyFloat) (t : String) :
    ∀ (idxs : List ℕ) (st : TVState),
      (idxs.foldl (storeGroup vs t) st).b1 =
        ((idxs.filter (fun i => i + 3 < vs.length)).map
          (fun i => vs.getD (i + 1) PyFloat.nan)).foldl RingBuf.append st.b1
  | [], _ => rfl
  | i :: idxs, st => by
    rw [List.foldl_cons]
    simp only [List.filter_cons, decide_eq_true_eq]
    by_cases h : i + 3 < vs.length
    · rw [if_pos h, List.map_cons, List.foldl_cons, foldl_storeGroup_b1 vs t idxs]
      congr 1
      unfold storeGroup
      rw [if_pos h]
    · rw [if_neg h, foldl_storeGroup_b1 vs t idxs]
      congr 1
      unfold storeGroup
      rw [if_neg h]

theorem foldl_storeGroup_b2 (vs : List PyFloat) (t : String) :
    ∀ (idxs : List ℕ) (st : TVState),
      (idxs.foldl (storeGroup vs t) st).b2 =
        ((idxs.filter (fun i => i + 3 < vs.length)).map
          (fun i => vs.getD (i + 2) PyFloat.nan)).foldl RingBuf.append st.b2
  | [], _ => rfl
  | i :: idxs, st => by
    rw [List.foldl_cons]
    simp only [List.filter_cons, decide_eq_true_eq]
    by_cases h : i + 3 < vs.length
    · rw [if_pos h, List.map_cons, List.foldl_cons, foldl_storeGroup_b2 vs t idxs]
      congr 1
      unfold storeGroup
      rw [if_pos h]
    · rw [if_neg h, foldl_storeGroup_b2 vs t idxs]
      congr 1
      unfold storeGroup
      rw [if_neg h]

theorem foldl_storeGroup_b3 (vs : List PyFloat) (t : String) :
    ∀ (idxs : List ℕ) (st : TVState),
      (idxs.foldl (storeGroup vs t) st).b3 =
        ((idxs.filter (fun i => i + 3 < vs.length)).map
          (fun i => vs.getD (i + 3) PyFloat.nan)).foldl RingBuf.append st.b3
  | [], _ => rfl
  | i :: idxs, st => by
    rw [List.foldl_cons]
    simp only [List.filter_cons, decide_eq_true_eq]
    by_cases h : i + 3 < vs.length
    · rw [if_pos h, List.map_cons, List.foldl_cons, foldl_storeGroup_b3 vs t idxs]
      congr 1
      unfold storeGroup
      rw [if_pos h]
    · rw [if_neg h, foldl_storeGroup_b3 vs t idxs]
      congr 1
      unfold storeGroup
      rw [if_neg h]

theorem foldl_storeGroup_ts (vs : List PyFloat) (t : String) :
    ∀ (idxs : List ℕ) (st : TVState),
      (idxs.foldl (storeGroup vs t) st).ts =
        ((idxs.filter (fun i => i + 3 < vs.length)).flatMap
          (fun _ => [t, t, t, t])).foldl RingBuf.append st.ts
  | [], _ => rfl
  | i :: idxs, st => by
    rw [List.foldl_cons]
    simp only [List.filter_cons, decide_eq_true_eq]
    by_cases h : i + 3 < vs.length
    · rw [if_pos h, List.flatMap_cons, List.foldl_append, foldl_storeGroup_ts vs t idxs]
      congr 1
      unfold storeGroup
      rw [if_pos h]
      rfl
    · rw [if_neg h, foldl_storeGroup_ts vs t idxs]
      congr 1
      unfold storeGroup
      rw [if_neg h]

theorem foldl_storeGroup_misc (vs : List PyFloat) (t : String) :
    ∀ (idxs : List ℕ) (st : TVState),
      (idxs.foldl (storeGroup vs t) st).dataRate = st.dataRate ∧
      (idxs.foldl (storeGroup vs t) st).lastDataTime = st.lastDataTime ∧
      (idxs.foldl (storeGroup vs t) st).mqttTag = st.mqttTag ∧
      (idxs.foldl (storeGroup vs t) st).projectName = st.projectName
  | [], _ => ⟨rfl, rfl, rfl, rfl⟩
  | i :: idxs, st => by
    rw [List.foldl_cons]
    have ih := foldl_storeGroup_misc vs t idxs (storeGroup vs t st i)
    have hsg : (storeGroup vs t st i).dataRate = st.dataRate ∧
        (storeGroup vs t st i).lastDataTime = st.lastDataTime ∧
        (storeGroup vs t st i).mqttTag = st.mqttTag ∧
        (storeGroup vs t st i).projectName = st.projectName := by
      unfold storeGroup
      by_cases h : i + 3 < vs.length
      · rw [if_pos h]
        exact ⟨rfl, rfl, rfl, rfl⟩
      · rw [if_neg h]
        exact ⟨rfl, rfl, rfl, rfl⟩
    exact ⟨ih.1.trans hsg.1, ih.2.1.trans hsg.2.1, ih.2.2.1.trans hsg.2.2.1,
      ih.2.2.2.trans hsg.2.2.2⟩

/-- Closed form of `split_and_store_values` on a well-formed state: each
channel ring ends up holding the last `cap` entries of its old contents
followed by the values at the consumed group positions (offset by the
channel index), and the timestamp ring likewise with four copies of the
timestamp per consumed group.  Scalar fields are untouched. -/
theorem split_and_store_values_spec (st : TVState) (vs : List PyFloat) (t : String)
    (h0 : st.b0.data.length ≤ st.b0.cap) (h1 : st.b1.data.length ≤ st.b1.cap)
    (h2 : st.b2.data.length ≤ st.b2.cap) (h3 : st.b3.data.length ≤ st.b3.cap)
    (hts : st.ts.data.length ≤ st.ts.cap) :
    (split_and_store_values st vs t).b0 =
      ⟨lastN st.b0.cap (st.b0.data ++
        (validStarts vs.length).map (fun i => vs.getD i PyFloat.nan)), st.b0.cap⟩ ∧
    (split_and_store_values st vs t).b1 =
      ⟨lastN st.b1.cap (st.b1.data ++
        (validStarts vs.length).map (fun i => vs.getD (i + 1) PyFloat.nan)), st.b1.cap⟩ ∧
    (split_and_store_values st vs t).b2 =
      ⟨lastN st.b2.cap (st.b2.data ++
        (validStarts vs.length).map (fun i => vs.getD (i + 2) PyFloat.nan)), st.b2.cap⟩ ∧
    (split_and_store_values st vs t).b3 =
      ⟨lastN st.b3.cap (st.b3.data ++
        (validStarts vs.length).map (fun i => vs.getD (i + 3) PyFloat.nan)), st.b3.cap⟩ ∧
    (split_and_store_values st vs t).ts =
      ⟨lastN st.ts.cap (st.ts.data ++
        (validStarts vs.length).flatMap (fun _ => [t, t, t, t])), st.ts.cap⟩ ∧
    (split_and_store_values st vs t).dataRate = st.dataRate ∧
    (split_and_store_values st vs t).lastDataTime = st.lastDataTime ∧
    (split_and_store_values st vs t).mqttTag = st.mqttTag ∧
    (split_and_store_values st vs t).projectName = st.projectName := by
  unfold split_and_store_values validStarts
  refine ⟨?_, ?_, ?_, ?_, ?_, ?_⟩
  · rw [foldl_storeGroup_b0, RingBuf.foldl_append_eq _ _ h0]
  · rw [foldl_storeGroup_b1, RingBuf.foldl_append_eq _ _ h1]
  · rw [foldl_storeGroup_b2, RingBuf.foldl_append_eq _ _ h2]
  · rw [foldl_storeGroup_b3, RingBuf.foldl_append_eq _ _ h3]
  · rw [foldl_storeGroup_ts, RingBuf.foldl_append_eq _ _ hts]
  · exact foldl_storeGroup_misc vs t _ st

/-! ### The buffer invariant and its preservation -/

theorem length_flatMap_four {σ τ : Type} (f : σ → List τ) (hf : ∀ s, (f s).length = 4) :
    ∀ l : List σ, (l.flatMap f).length = 4 * l.length
  | [] => rfl
  | x :: xs => by
    rw [List.flatMap_cons, List.length_append, hf x, length_flatMap_four f hf xs,
      List.length_cons]
    omega

theorem BufInv_initState (p : String) : BufInv (initState p) := by
  unfold BufInv initState
  norm_num

theorem BufInv_split (st : TVState) (vs : List PyFloat) (t : String) (h : BufInv st) :
    BufInv (split_and_store_values st vs t) := by
  obtain ⟨c0, c1, c2, c3, cts, e1, e2, e3, k1, k2, k3, tl, tc⟩ := h
  obtain ⟨f0, f1, f2, f3, fts, -⟩ := split_and_store_values_spec st vs t c0 c1 c2 c3 cts
  unfold BufInv
  rw [f0, f1, f2, f3, fts]
  simp only [lastN_length, List.length_append, List.length_map,
    length_flatMap_four (fun _ => ([t, t, t, t] : List String)) (fun _ => rfl)]
  omega

theorem BufInv_adjust (st : TVState) (w : ℚ) (h : BufInv st) :
    BufInv (adjust_buffer_size st w) := by
  obtain ⟨c0, c1, c2, c3, cts, e1, e2, e3, k1, k2, k3, tl, tc⟩ := h
  unfold adjust_buffer_size
  split
  · split
    · unfold BufInv
      dsimp only
      simp only [RingBuf.ofList_eq, lastN_length, and_true, true_and]
      omega
    · exact ⟨c0, c1, c2, c3, cts, e1, e2, e3, k1, k2, k3, tl, tc⟩
  · exact ⟨c0, c1, c2, c3, cts, e1, e2, e3, k1, k2, k3, tl, tc⟩

theorem BufInv_clearAndSelect (st : TVState) (tag : String) (h : BufInv st) :
    BufInv (clearAndSelect st tag) := by
  obtain ⟨-, -, -, -, -, -, -, -, k1, k2, k3, -, tc⟩ := h
  exact ⟨by simp [clearAndSelect], by simp [clearAndSelect], by simp [clearAndSelect],
    by simp [clearAndSelect], by simp [clearAndSelect], rfl, rfl, rfl,
    k1, k2, k3, by simp [clearAndSelect], tc⟩

theorem BufInv_foldl_split :
    ∀ (entries : List (List PyFloat × String)) (s : TVState), BufInv s →
      BufInv (entries.foldl (fun s e => split_and_store_values s e.1 e.2) s)
  | [], _, h => h
  | e :: es, s, h => BufInv_foldl_split es _ (BufInv_split s e.1 e.2 h)

theorem BufInv_setup (st : TVState) (tag : String)
    (hist : List (List PyFloat × String)) (h : BufInv st) :
    BufInv (setup_time_view_plot st tag hist) := by
  unfold setup_time_view_plot
  split
  · exact h
  · exact BufInv_foldl_split _ _ (BufInv_clearAndSelect st tag h)

/-- `BufInv` only looks at the ring fields. -/
theorem BufInv_of_fields (s1 : TVState) {s2 : TVState} (h0 : s2.b0 = s1.b0) (h1 : s2.b1 = s1.b1)
    (h2 : s2.b2 = s1.b2) (h3 : s2.b3 = s1.b3) (hts : s2.ts = s1.ts)
    (h : BufInv s1) : BufInv s2 := by
  unfold BufInv at h ⊢
  rw [h0, h1, h2, h3, hts]
  exact h

theorem BufInv_ingest (st : TVState) (tag : String) (vs : List PyFloat)
    (now : ℚ) (iso : String) (h : BufInv st) :
    BufInv (on_data_received st tag vs now iso) := by
  unfold on_data_received
  split
  · apply BufInv_split
    refine BufInv_of_fields st ?_ ?_ ?_ ?_ ?_ h <;>
      · cases st.lastDataTime with
        | none => rfl
        | some prev =>
          dsimp only
          split <;> rfl
  · exact h

theorem BufInv_updateState (st : TVState) (xl0 : ℚ × ℚ) (h : BufInv st) :
    BufInv (updateState st xl0) := by
  unfold updateState
  split
  · exact h
  · split
    · exact h
    · exact BufInv_adjust _ _ h

/-- Every reachable state satisfies the buffer invariant. -/
theorem reach_BufInv (st : TVState) (h : Reach st) : BufInv st := by
  induction h with
  | init p => exact BufInv_initState p
  | setup st tag hist _ ih => exact BufInv_setup st tag hist ih
  | ingest st tag vs now iso _ ih => exact BufInv_ingest st tag vs now iso ih
  | adjust st w _ ih => exact BufInv_adjust st w ih
  | update st xl0 _ ih => exact BufInv_updateState st xl0 ih

/-! ### Tick-loop closed form -/

theorem tickLoop_closed (ymax step : ℚ) (hs : 0 < step) :
    ∀ (n : ℕ) (current : ℚ), current ≤ ymax →
      (⌊(ymax - current) / step⌋).toNat = n →
      tickLoop ymax step current =
        (List.range (n + 1)).map (fun k : ℕ => current + (k : ℚ) * step)
  | 0, current, hc, hfl => by
    have h0 : (0 : ℤ) ≤ ⌊(ymax - current) / step⌋ :=
      Int.floor_nonneg.mpr (div_nonneg (by linarith) hs.le)
    have hflz : ⌊(ymax - current) / step⌋ = 0 := by omega
    have hlt : (ymax - current) / step < 1 := by
      have hx := Int.lt_floor_add_one ((ymax - current) / step)
      rw [hflz] at hx
      simpa using hx
    have hgt : ymax < current + step := by
      have hy := (div_lt_one hs).mp hlt
      linarith
    rw [tickLoop, dif_pos ⟨hs, hc⟩, tickLoop,
      dif_neg (by push_neg; intro _; linarith)]
    norm_num [List.range_succ]
  | n + 1, current, hc, hfl => by
    have h0 : (0 : ℤ) ≤ ⌊(ymax - current) / step⌋ :=
      Int.floor_nonneg.mpr (div_nonneg (by linarith) hs.le)
    have hfl1 : ⌊(ymax - current) / step⌋ = n + 1 := by omega
    have hge : (1 : ℚ) ≤ (ymax - current) / step := by
      have hx : ((n : ℚ) + 1) ≤ (ymax - current) / step := by
        have hz := Int.le_floor.mp (le_of_eq hfl1.symm)
        exact_mod_cast hz
      have hn0 : (0 : ℚ) ≤ (n : ℚ) := Nat.cast_nonneg n
      linarith
    have hc' : current + step ≤ ymax := by
      have hy := (one_le_div hs).mp hge
      linarith
    have harg : (ymax - (current + step)) / step = (ymax - current) / step - 1 := by
      field_simp
      ring
    have hfl' : (⌊(ymax - (current + step)) / step⌋).toNat = n := by
      rw [harg, Int.floor_sub_one, hfl1]
      omega
    rw [tickLoop, dif_pos ⟨hs, hc⟩, tickLoop_closed ymax step hs n (current + step) hc' hfl']
    conv_rhs => rw [List.range_succ_eq_map, List.map_cons, List.map_map]
    congr 1
    · norm_num
    · apply List.map_congr_left
      intro k _
      simp only [Function.comp_apply]
      push_cast
      ring

/-! ### Timestamp-window lemmas -/

theorem every4th_cons (x : α) (rest : List α) :
    every4th (x :: rest) = x :: every4th (rest.drop 3) := by
  rw [every4th]

theorem every4th_nil : every4th ([] : List α) = [] := by
  rw [every4th]

/-- Taking every 4th entry of a 4-fold-replicated list recovers the
original list. -/
theorem every4th_flatMap_rep {σ : Type} : ∀ gs : List σ,
    every4th (gs.flatMap (fun s => [s, s, s, s])) = gs
  | [] => by rw [List.flatMap_nil, every4th_nil]
  | g :: gs => by
    rw [List.flatMap_cons]
    simp only [List.cons_append, List.nil_append]
    rw [every4th_cons,
      show (g :: g :: g :: gs.flatMap (fun s => [s, s, s, s])).drop 3 =
        gs.flatMap (fun s => [s, s, s, s]) from rfl,
      every4th_flatMap_rep gs]

theorem drop4_flatMap_rep {σ : Type} : ∀ (gs : List σ) (k : ℕ),
    (gs.flatMap (fun s => [s, s, s, s])).drop (4 * k) =
      (gs.drop k).flatMap (fun s => [s, s, s, s])
  | _, 0 => by simp
  | [], _ + 1 => by simp
  | g :: gs, k + 1 => by
    rw [List.flatMap_cons, List.drop_succ_cons,
      show 4 * (k + 1) = ([g, g, g, g] : List σ).length + 4 * k from by
        simp only [List.length_cons, List.length_nil]; omega,
      List.drop_append]
    exact drop4_flatMap_rep gs k

theorem getLast?_drop_of_lt : ∀ (l : List α) (k : ℕ), k < l.length →
    (l.drop k).getLast? = l.getLast?
  | _, 0, _ => by simp
  | [], k + 1, h => by simp at h
  | a :: t, k + 1, h => by
    rw [List.drop_succ_cons, getLast?_drop_of_lt t k (by simpa using h)]
    obtain ⟨b, t', rfl⟩ : ∃ b t', t = b :: t' := by
      cases t with
      | nil => simp at h
      | cons b t' => exact ⟨b, t', rfl⟩
    rw [List.getLast?_cons_cons]

/-- The last of the timestamps a channel's window samples (every 4th of
the last `spw * 4` entries) is the last group's timestamp, when the ring
holds one 4-replicated group per channel sample. -/
theorem window_ts_last (gs : List String) (spw : ℕ) (h1 : 1 ≤ spw)
    (hle : spw ≤ gs.length) :
    (every4th (lastN (spw * 4) (gs.flatMap (fun s => [s, s, s, s])))).getLast? =
      gs.getLast? := by
  unfold lastN
  rw [length_flatMap_four (fun s : String => [s, s, s, s]) (fun _ => rfl) gs,
    show 4 * gs.length - spw * 4 = 4 * (gs.length - spw) from by omega,
    drop4_flatMap_rep, every4th_flatMap_rep]
  exact getLast?_drop_of_lt gs _ (by omega)

/-! ### Field-preservation lemmas -/

theorem RingBuf.foldl_append_cap :
    ∀ (xs : List α) (r : RingBuf α), (xs.foldl RingBuf.append r).cap = r.cap
  | [], _ => rfl
  | _ :: xs, r => RingBuf.foldl_append_cap xs _

theorem split_and_store_values_misc (st : TVState) (vs : List PyFloat) (t : String) :
    (split_and_store_values st vs t).dataRate = st.dataRate ∧
    (split_and_store_values st vs t).lastDataTime = st.lastDataTime ∧
    (split_and_store_values st vs t).mqttTag = st.mqttTag ∧
    (split_and_store_values st vs t).projectName = st.projectName :=
  foldl_storeGroup_misc vs t _ st

theorem split_and_store_values_caps (st : TVState) (vs : List PyFloat) (t : String) :
    (split_and_store_values st vs t).b0.cap = st.b0.cap ∧
    (split_and_store_values st vs t).b1.cap = st.b1.cap ∧
    (split_and_store_values st vs t).b2.cap = st.b2.cap ∧
    (split_and_store_values st vs t).b3.cap = st.b3.cap ∧
    (split_and_store_values st vs t).ts.cap = st.ts.cap := by
  unfold split_and_store_values
  refine ⟨?_, ?_, ?_, ?_, ?_⟩
  · rw [foldl_storeGroup_b0]
    exact RingBuf.foldl_append_cap _ _
  · rw [foldl_storeGroup_b1]
    exact RingBuf.foldl_append_cap _ _
  · rw [foldl_storeGroup_b2]
    exact RingBuf.foldl_append_cap _ _
  · rw [foldl_storeGroup_b3]
    exact RingBuf.foldl_append_cap _ _
  · rw [foldl_storeGroup_ts]
    exact RingBuf.foldl_append_cap _ _

theorem foldl_entries_fields :
    ∀ (entries : List (List PyFloat × String)) (s : TVState),
      (entries.foldl (fun s e => split_and_store_values s e.1 e.2) s).dataRate = s.dataRate ∧
      (entries.foldl (fun s e => split_and_store_values s e.1 e.2) s).lastDataTime = s.lastDataTime ∧
      (entries.foldl (fun s e => split_and_store_values s e.1 e.2) s).mqttTag = s.mqttTag ∧
      (entries.foldl (fun s e => split_and_store_values s e.1 e.2) s).b0.cap = s.b0.cap ∧
      (entries.foldl (fun s e => split_and_store_values s e.1 e.2) s).ts.cap = s.ts.cap
  | [], _ => ⟨rfl, rfl, rfl, rfl, rfl⟩
  | e :: es, s => by
    rw [List.foldl_cons]
    have ih := foldl_entries_fields es (split_and_store_values s e.1 e.2)
    have hm := split_and_store_values_misc s e.1 e.2
    have hc := split_and_store_values_caps s e.1 e.2
    exact ⟨ih.1.trans hm.1, ih.2.1.trans hm.2.1, ih.2.2.1.trans hm.2.2.1,
      ih.2.2.2.1.trans hc.1, ih.2.2.2.2.trans hc.2.2.2.2⟩

/-- Closed form for re-seeding: folding `split_and_store_values` over a
list of `(values, timestamp)` entries appends each entry's consumed
values (and 4-replicated timestamps) in order, truncated to each ring's
capacity. -/
theorem foldl_split_closed :
    ∀ (es : List (List PyFloat × String)) (s : TVState),
      s.b0.data.length ≤ s.b0.cap → s.b1.data.length ≤ s.b1.cap →
      s.b2.data.length ≤ s.b2.cap → s.b3.data.length ≤ s.b3.cap →
      s.ts.data.length ≤ s.ts.cap →
      (es.foldl (fun s e => split_and_store_values s e.1 e.2) s).b0 =
        ⟨lastN s.b0.cap (s.b0.data ++ es.flatMap
          (fun e => (validStarts e.1.length).map (fun i => e.1.getD i PyFloat.nan))),
         s.b0.cap⟩ ∧
      (es.foldl (fun s e => split_and_store_values s e.1 e.2) s).b1 =
        ⟨lastN s.b1.cap (s.b1.data ++ es.flatMap
          (fun e => (validStarts e.1.length).map (fun i => e.1.getD (i + 1) PyFloat.nan))),
         s.b1.cap⟩ ∧
      (es.foldl (fun s e => split_and_store_values s e.1 e.2) s).b2 =
        ⟨lastN s.b2.cap (s.b2.data ++ es.flatMap
          (fun e => (validStarts e.1.length).map (fun i => e.1.getD (i + 2) PyFloat.nan))),
         s.b2.cap⟩ ∧
      (es.foldl (fun s e => split_and_store_values s e.1 e.2) s).b3 =
        ⟨lastN s.b3.cap (s.b3.data ++ es.flatMap
          (fun e => (validStarts e.1.length).map (fun i => e.1.getD (i + 3) PyFloat.nan))),
         s.b3.cap⟩ ∧
      (es.foldl (fun s e => split_and_store_values s e.1 e.2) s).ts =
        ⟨lastN s.ts.cap (s.ts.data ++ es.flatMap
          (fun e => (validStarts e.1.length).flatMap (fun _ => [e.2, e.2, e.2, e.2]))),
         s.ts.cap⟩
  | [], s, h0, h1, h2, h3, hts => by
    simp only [List.foldl_nil, List.flatMap_nil, List.append_nil, lastN_of_le h0,
      lastN_of_le h1, lastN_of_le h2, lastN_of_le h3, lastN_of_le hts]
    refine ⟨?_, ?_, ?_, ?_, ?_⟩ <;> first | rfl | trivial
  | e :: es, s, h0, h1, h2, h3, hts => by
    rw [List.foldl_cons]
    obtain ⟨f0, f1, f2, f3, fts, -⟩ := split_and_store_values_spec s e.1 e.2 h0 h1 h2 h3 hts
    have hb0 : (split_and_store_values s e.1 e.2).b0.data.length ≤
        (split_and_store_values s e.1 e.2).b0.cap := by
      rw [f0]
      dsimp only
      rw [lastN_length]
      omega
    have hb1 : (split_and_store_values s e.1 e.2).b1.data.length ≤
        (split_and_store_values s e.1 e.2).b1.cap := by
      rw [f1]
      dsimp only
      rw [lastN_length]
      omega
    have hb2 : (split_and_store_values s e.1 e.2).b2.data.length ≤
        (split_and_store_values s e.1 e.2).b2.cap := by
      rw [f2]
      dsimp only
      rw [lastN_length]
      omega
    have hb3 : (split_and_store_values s e.1 e.2).b3.data.length ≤
        (split_and_store_values s e.1 e.2).b3.cap := by
      rw [f3]
      dsimp only
      rw [lastN_length]
      omega
    have hbts : (split_and_store_values s e.1 e.2).ts.data.length ≤
        (split_and_store_values s e.1 e.2).ts.cap := by
      rw [fts]
      dsimp only
      rw [lastN_length]
      omega
    obtain ⟨g0, g1, g2, g3, gts⟩ :=
      foldl_split_closed es (split_and_store_values s e.1 e.2) hb0 hb1 hb2 hb3 hbts
    refine ⟨?_, ?_, ?_, ?_, ?_⟩
    · rw [g0, f0]
      dsimp only
      rw [lastN_absorb, List.append_assoc, List.flatMap_cons]
    · rw [g1, f1]
      dsimp only
      rw [lastN_absorb, List.append_assoc, List.flatMap_cons]
    · rw [g2, f2]
      dsimp only
      rw [lastN_absorb, List.append_assoc, List.flatMap_cons]
    · rw [g3, f3]
      dsimp only
      rw [lastN_absorb, List.append_assoc, List.flatMap_cons]
    · rw [gts, fts]
      dsimp only
      rw [lastN_absorb, List.append_assoc, List.flatMap_cons]

/-! ### Claim C3 -/

/-- C3: resizing a ring buffer holding `n` entries to a new capacity `C`
(as the Buffer Sizer does via `deque(old, maxlen = C)`) keeps exactly the
most recent `min(n, C)` previous entries, in their original order (the
result is a suffix of the old contents); the timestamp ring is preserved
the same way at capacity `4 * C`. -/
theorem resize_preserves_recent (C : ℕ) (l : List PyFloat) (tl : List String) :
    (RingBuf.ofList C l).cap = C ∧
    (RingBuf.ofList C l).data.length = min l.length C ∧
    (RingBuf.ofList C l).data <:+ l ∧
    (RingBuf.ofList C l).data = lastN C l ∧
    (RingBuf.ofList (4 * C) tl).cap = 4 * C ∧
    (RingBuf.ofList (4 * C) tl).data.length = min tl.length (4 * C) ∧
    (RingBuf.ofList (4 * C) tl).data <:+ tl ∧
    (RingBuf.ofList (4 * C) tl).data = lastN (4 * C) tl := by
  rw [RingBuf.ofList_eq, RingBuf.ofList_eq]
  exact ⟨rfl, lastN_length C l, lastN_suffix _ l, rfl, rfl,
    lastN_length _ tl, lastN_suffix _ tl, rfl⟩

/-! ### Claim C4 -/

/-- C4: along every reachable interleaving of ingested batches, resizes
and tag switches, each channel ring's length never exceeds its current
capacity and the timestamp ring (whose capacity is 4× a channel's) never
exceeds its own; and an append to a ring at full (positive) capacity
evicts exactly the oldest entry. -/
theorem ring_capacity_invariant :
    (∀ st : TVState, Reach st →
      st.b0.data.length ≤ st.b0.cap ∧ st.b1.data.length ≤ st.b1.cap ∧
      st.b2.data.length ≤ st.b2.cap ∧ st.b3.data.length ≤ st.b3.cap ∧
      st.ts.data.length ≤ st.ts.cap ∧ st.ts.cap = 4 * st.b0.cap) ∧
    (∀ (α : Type) (r : RingBuf α) (x : α), r.data.length = r.cap → 0 < r.cap →
      (r.append x).data = r.data.tail ++ [x]) := by
  constructor
  · intro st h
    obtain ⟨c0, c1, c2, c3, cts, -, -, -, -, -, -, -, tc⟩ := reach_BufInv st h
    exact ⟨c0, c1, c2, c3, cts, tc⟩
  · intro α r x h1 h2
    exact RingBuf.append_full r x h1 h2

/-- Witness for C4: the freshly constructed widget state is reachable and
satisfies the bounds, and an append to a full one-slot ring replaces its
single entry. -/
theorem ring_capacity_invariant_witness :
    (initState "proj").b0.data.length ≤ (initState "proj").b0.cap ∧
    (initState "proj").ts.cap = 4 * (initState "proj").b0.cap ∧
    (RingBuf.append ⟨[PyFloat.num 7], 1⟩ (PyFloat.num 8)).data = [PyFloat.num 8] :=
  ⟨(ring_capacity_invariant.1 (initState "proj") (Reach.init "proj")).1,
   (ring_capacity_invariant.1 (initState "proj") (Reach.init "proj")).2.2.2.2.2,
   (ring_capacity_invariant.2 PyFloat ⟨[PyFloat.num 7], 1⟩ (PyFloat.num 8) rfl
      (by norm_num)).trans rfl⟩

/-! ### Claim C10 -/

/-- C10: after construction and after every buffer-mutating operation
(ingest, tag-switch clearing and re-seeding, resizing, plot refresh), the
four channel rings have equal lengths and equal capacities, and the
timestamp ring holds exactly 4 entries per channel entry. -/
theorem buffer_alignment_invariant (st : TVState) (h : Reach st) :
    st.b1.data.length = st.b0.data.length ∧
    st.b2.data.length = st.b0.data.length ∧
    st.b3.data.length = st.b0.data.length ∧
    st.b1.cap = st.b0.cap ∧ st.b2.cap = st.b0.cap ∧ st.b3.cap = st.b0.cap ∧
    st.ts.data.length = 4 * st.b0.data.length := by
  obtain ⟨-, -, -, -, -, e1, e2, e3, k1, k2, k3, tl, -⟩ := reach_BufInv st h
  exact ⟨e1, e2, e3, k1, k2, k3, tl⟩

/-- Witness for C10 at the freshly constructed state. -/
theorem buffer_alignment_invariant_witness :
    (initState "proj").b1.data.length = (initState "proj").b0.data.length ∧
    (initState "proj").b2.data.length = (initState "proj").b0.data.length ∧
    (initState "proj").b3.data.length = (initState "proj").b0.data.length ∧
    (initState "proj").b1.cap = (initState "proj").b0.cap ∧
    (initState "proj").b2.cap = (initState "proj").b0.cap ∧
    (initState "proj").b3.cap = (initState "proj").b0.cap ∧
    (initState "proj").ts.data.length = 4 * (initState "proj").b0.data.length :=
  buffer_alignment_invariant (initState "proj") (Reach.init "proj")

/-! ### Claim C2 -/

/-- Evaluation rule for `targetBufferSize` on nonnegative products. -/
theorem targetBufferSize_eval {r w : ℚ} {z : ℤ} (h0 : 0 ≤ r * w * 2)
    (hf : ⌊r * w * 2⌋ = z) : targetBufferSize r w = (max z 100).toNat := by
  unfold targetBufferSize pyInt
  rw [if_pos h0, hf]

/-- C2 counterexample: with data rate 1, window width 75.9 and current
capacity 151, the source computes `int(1 × 75.9 × 2) = int(151.8) = 151`,
equal to the capacity, and leaves every buffer untouched — while the
claim's round-to-nearest target is `152 ≠ 151` and so requires a
reallocation. -/
theorem buffer_target_rounding_claim_false :
    adjust_buffer_size
        { projectName := "p", mqttTag := some "t",
          b0 := ⟨[], 151⟩, b1 := ⟨[], 151⟩, b2 := ⟨[], 151⟩, b3 := ⟨[], 151⟩,
          ts := ⟨[], 604⟩, dataRate := 1, lastDataTime := none }
        (759 / 10) =
      { projectName := "p", mqttTag := some "t",
        b0 := ⟨[], 151⟩, b1 := ⟨[], 151⟩, b2 := ⟨[], 151⟩, b3 := ⟨[], 151⟩,
        ts := ⟨[], 604⟩, dataRate := 1, lastDataTime := none } ∧
    (max (round ((1 : ℚ) * (759 / 10) * 2)) 100 : ℤ) ≠ 151 := by
  have htar : targetBufferSize (1 : ℚ) (759 / 10) = 151 := by
    rw [targetBufferSize_eval (by norm_num)
      (show ⌊(1 : ℚ) * (759 / 10) * 2⌋ = 151 from by norm_num)]
    rfl
  constructor
  · unfold adjust_buffer_size
    rw [if_pos (by norm_num), if_neg (fun hh => hh htar)]
  · rw [show round ((1 : ℚ) * (759 / 10) * 2) = 152 from by norm_num [round_eq]]
    decide

/-- C2 (amended): the target capacity is `max(int(rate × width × 2), 100)`
with `int` truncating toward zero (not rounding to nearest); the four
channel rings are rebuilt at that capacity (keeping their most recent
entries) and the timestamp ring at 4× it exactly when the data rate is
positive and the target differs from the current capacity, and every
buffer is left untouched otherwise. -/
theorem adjust_buffer_size_amended (st : TVState) (w : ℚ) :
    (0 < st.dataRate →
      (targetBufferSize st.dataRate w ≠ st.b0.cap →
        (adjust_buffer_size st w).b0.data =
          lastN (targetBufferSize st.dataRate w) st.b0.data ∧
        (adjust_buffer_size st w).b1.data =
          lastN (targetBufferSize st.dataRate w) st.b1.data ∧
        (adjust_buffer_size st w).b2.data =
          lastN (targetBufferSize st.dataRate w) st.b2.data ∧
        (adjust_buffer_size st w).b3.data =
          lastN (targetBufferSize st.dataRate w) st.b3.data ∧
        (adjust_buffer_size st w).ts.data =
          lastN (targetBufferSize st.dataRate w * 4) st.ts.data ∧
        (adjust_buffer_size st w).b0.cap = targetBufferSize st.dataRate w ∧
        (adjust_buffer_size st w).b1.cap = targetBufferSize st.dataRate w ∧
        (adjust_buffer_size st w).b2.cap = targetBufferSize st.dataRate w ∧
        (adjust_buffer_size st w).b3.cap = targetBufferSize st.dataRate w ∧
        (adjust_buffer_size st w).ts.cap = targetBufferSize st.dataRate w * 4) ∧
      (targetBufferSize st.dataRate w = st.b0.cap → adjust_buffer_size st w = st)) ∧
    (¬ 0 < st.dataRate → adjust_buffer_size st w = st) ∧
    targetBufferSize st.dataRate w = (max (pyInt (st.dataRate * w * 2)) 100).toNat := by
  refine ⟨fun hr => ⟨fun hne => ?_, fun heq => ?_⟩, fun hr => ?_, rfl⟩
  · unfold adjust_buffer_size
    rw [if_pos hr, if_pos hne]
    simp [RingBuf.ofList_eq]
  · unfold adjust_buffer_size
    rw [if_pos hr, if_neg (fun hh => hh heq)]
  · unfold adjust_buffer_size
    rw [if_neg hr]

/-- Witness for C2 (amended): data rate 2, width 30 yields target 120,
which differs from capacity 100, so the rings are rebuilt at 120 (and the
timestamp ring at 480); and a zero data rate leaves the state unchanged. -/
theorem adjust_buffer_size_amended_witness :
    ((adjust_buffer_size
        { projectName := "p", mqttTag := some "t",
          b0 := ⟨[PyFloat.num 1], 100⟩, b1 := ⟨[PyFloat.num 1], 100⟩,
          b2 := ⟨[PyFloat.num 1], 100⟩, b3 := ⟨[PyFloat.num 1], 100⟩,
          ts := ⟨["a", "a", "a", "a"], 400⟩, dataRate := 2, lastDataTime := none }
        30).b0.cap = targetBufferSize (2 : ℚ) 30 ∧
     (adjust_buffer_size
        { projectName := "p", mqttTag := some "t",
          b0 := ⟨[PyFloat.num 1], 100⟩, b1 := ⟨[PyFloat.num 1], 100⟩,
          b2 := ⟨[PyFloat.num 1], 100⟩, b3 := ⟨[PyFloat.num 1], 100⟩,
          ts := ⟨["a", "a", "a", "a"], 400⟩, dataRate := 2, lastDataTime := none }
        30).ts.data = lastN (targetBufferSize (2 : ℚ) 30 * 4) ["a", "a", "a", "a"]) ∧
    adjust_buffer_size
        { projectName := "p", mqttTag := some "t",
          b0 := ⟨[], 100⟩, b1 := ⟨[], 100⟩, b2 := ⟨[], 100⟩, b3 := ⟨[], 100⟩,
          ts := ⟨[], 400⟩, dataRate := 0, lastDataTime := none } 5 =
      { projectName := "p", mqttTag := some "t",
        b0 := ⟨[], 100⟩, b1 := ⟨[], 100⟩, b2 := ⟨[], 100⟩, b3 := ⟨[], 100⟩,
        ts := ⟨[], 400⟩, dataRate := 0, lastDataTime := none } := by
  have htar : targetBufferSize (2 : ℚ) 30 = 120 := by
    rw [targetBufferSize_eval (by norm_num)
      (show ⌊(2 : ℚ) * 30 * 2⌋ = 120 from by norm_num)]
    rfl
  constructor
  · have h := ((adjust_buffer_size_amended
      { projectName := "p", mqttTag := some "t",
        b0 := ⟨[PyFloat.num 1], 100⟩, b1 := ⟨[PyFloat.num 1], 100⟩,
        b2 := ⟨[PyFloat.num 1], 100⟩, b3 := ⟨[PyFloat.num 1], 100⟩,
        ts := ⟨["a", "a", "a", "a"], 400⟩, dataRate := 2, lastDataTime := none }
      30).1 (by norm_num)).1 (by rw [htar]; decide)
    exact ⟨h.2.2.2.2.2.1, h.2.2.2.2.1⟩
  · exact (adjust_buffer_size_amended _ 5).2.1 (by norm_num)

/-! ### Claim C7 -/

/-- C7 counterexample: switching to a valid tag while the historical
store holds an entry of 14 values pre-seeds the buffers, so channel 0
reports length 1, not 0, immediately after `setup_time_view_plot`
completes. -/
theorem tag_switch_empty_claim_false :
    (setup_time_view_plot (initState "proj1") "tag1"
        [((List.range 14).map (fun n => PyFloat.num n),
          "2024-01-01T00:00:00.000000")]).b0.data.length ≠ 0 := by
  decide

/-- C7 (amended): immediately after switching to a valid tag the data
rate is 1.0 and the last-batch time is cleared, the tag is selected and
capacities are preserved; the buffers are cleared and then hold exactly
the demultiplexed content of the last two (or fewer) historical entries —
each channel the consumed group values at its offset, the timestamp ring
the entries' timestamps four per consumed group, truncated to each ring's
capacity.  In particular they report length 0 when the store returns no
data, and also whenever those entries yield no complete group (e.g. an
entry shorter than 14 values). -/
theorem tag_switch_reset_amended (st : TVState) (tag : String)
    (hist : List (List PyFloat × String)) (hproj : st.projectName ≠ "")
    (htag : tag ≠ "") (hna : tag ≠ "No Tags Available") :
    (setup_time_view_plot st tag hist).dataRate = 1 ∧
    (setup_time_view_plot st tag hist).lastDataTime = none ∧
    (setup_time_view_plot st tag hist).mqttTag = some tag ∧
    (setup_time_view_plot st tag hist).b0.cap = st.b0.cap ∧
    (setup_time_view_plot st tag hist).ts.cap = st.ts.cap ∧
    (setup_time_view_plot st tag hist).b0.data =
      lastN st.b0.cap ((hist.drop (hist.length - 2)).flatMap
        (fun e => (validStarts e.1.length).map (fun i => e.1.getD i PyFloat.nan))) ∧
    (setup_time_view_plot st tag hist).b1.data =
      lastN st.b1.cap ((hist.drop (hist.length - 2)).flatMap
        (fun e => (validStarts e.1.length).map (fun i => e.1.getD (i + 1) PyFloat.nan))) ∧
    (setup_time_view_plot st tag hist).b2.data =
      lastN st.b2.cap ((hist.drop (hist.length - 2)).flatMap
        (fun e => (validStarts e.1.length).map (fun i => e.1.getD (i + 2) PyFloat.nan))) ∧
    (setup_time_view_plot st tag hist).b3.data =
      lastN st.b3.cap ((hist.drop (hist.length - 2)).flatMap
        (fun e => (validStarts e.1.length).map (fun i => e.1.getD (i + 3) PyFloat.nan))) ∧
    (setup_time_view_plot st tag hist).ts.data =
      lastN st.ts.cap ((hist.drop (hist.length - 2)).flatMap
        (fun e => (validStarts e.1.length).flatMap (fun _ => [e.2, e.2, e.2, e.2]))) ∧
    (hist = [] →
      (setup_time_view_plot st tag hist).b0.data = [] ∧
      (setup_time_view_plot st tag hist).b1.data = [] ∧
      (setup_time_view_plot st tag hist).b2.data = [] ∧
      (setup_time_view_plot st tag hist).b3.data = [] ∧
      (setup_time_view_plot st tag hist).ts.data = []) := by
  unfold setup_time_view_plot
  rw [if_neg (by simp [hproj, htag, hna])]
  have hf := foldl_entries_fields (hist.drop (hist.length - 2)) (clearAndSelect st tag)
  obtain ⟨g0, g1, g2, g3, gts⟩ := foldl_split_closed (hist.drop (hist.length - 2))
    (clearAndSelect st tag) (Nat.zero_le _) (Nat.zero_le _) (Nat.zero_le _)
    (Nat.zero_le _) (Nat.zero_le _)
  refine ⟨hf.1, hf.2.1, hf.2.2.1, hf.2.2.2.1, hf.2.2.2.2,
    congrArg RingBuf.data g0, congrArg RingBuf.data g1, congrArg RingBuf.data g2,
    congrArg RingBuf.data g3, congrArg RingBuf.data gts, fun he => ?_⟩
  subst he
  exact ⟨rfl, rfl, rfl, rfl, rfl⟩

/-- Witness for C7 (amended): a valid switch with an empty store yields
rate 1.0 and empty buffers; with one stored 14-value entry channel 0
holds exactly the consumed values of that entry; and a stored 12-value
entry (too short for a complete group) seeds nothing. -/
theorem tag_switch_reset_amended_witness :
    ((setup_time_view_plot (initState "proj1") "tag1" []).dataRate = 1 ∧
     (setup_time_view_plot (initState "proj1") "tag1" []).lastDataTime = none ∧
     (setup_time_view_plot (initState "proj1") "tag1" []).b0.data = [] ∧
     (setup_time_view_plot (initState "proj1") "tag1" []).ts.data = []) ∧
    (setup_time_view_plot (initState "proj1") "tag1"
        [((List.range 14).map (fun n => PyFloat.num n), "tz")]).b0.data =
      lastN (initState "proj1").b0.cap
        (([((List.range 14).map (fun n => PyFloat.num n), "tz")].drop
            ([((List.range 14).map (fun n => PyFloat.num n), "tz")].length - 2)).flatMap
          (fun e => (validStarts e.1.length).map (fun i => e.1.getD i PyFloat.nan))) ∧
    (setup_time_view_plot (initState "proj1") "tag1"
        [((List.range 12).map (fun n => PyFloat.num n), "tz")]).b0.data = [] := by
  have hE := tag_switch_reset_amended (initState "proj1") "tag1" []
    (by decide) (by decide) (by decide)
  have hN := tag_switch_reset_amended (initState "proj1") "tag1"
    [((List.range 14).map (fun n => PyFloat.num n), "tz")]
    (by decide) (by decide) (by decide)
  have hS := tag_switch_reset_amended (initState "proj1") "tag1"
    [((List.range 12).map (fun n => PyFloat.num n), "tz")]
    (by decide) (by decide) (by decide)
  refine ⟨⟨hE.1, hE.2.1, (hE.2.2.2.2.2.2.2.2.2.2 rfl).1,
    (hE.2.2.2.2.2.2.2.2.2.2 rfl).2.2.2.2⟩, hN.2.2.2.2.2.1, ?_⟩
  refine (hS.2.2.2.2.2.1).trans ?_
  decide

/-! ### Claim C8 -/

/-- The data rate after a matching ingest, as a function of the previous
batch time. -/
theorem on_data_received_rate (st : TVState) (tag : String) (vs : List PyFloat)
    (now : ℚ) (iso : String) (htag : st.mqttTag = some tag) :
    (on_data_received st tag vs now iso).dataRate =
      (match st.lastDataTime with
       | some prev =>
         if 0 < now - prev then (vs.length : ℚ) / (now - prev) / 4 else st.dataRate
       | none => st.dataRate) := by
  unfold on_data_received
  rw [if_pos htag]
  rcases hl : st.lastDataTime with - | prev
  · exact (split_and_store_values_misc _ vs iso).1
  · dsimp only
    split
    · exact (split_and_store_values_misc _ vs iso).1
    · exact (split_and_store_values_misc _ vs iso).1

/-- A matching ingest records the receipt time and keeps the selected
tag. -/
theorem on_data_received_fields (st : TVState) (tag : String) (vs : List PyFloat)
    (now : ℚ) (iso : String) (htag : st.mqttTag = some tag) :
    (on_data_received st tag vs now iso).lastDataTime = some now ∧
    (on_data_received st tag vs now iso).mqttTag = st.mqttTag := by
  unfold on_data_received
  rw [if_pos htag]
  constructor
  · exact (split_and_store_values_misc _ vs iso).2.1
  · refine ((split_and_store_values_misc _ vs iso).2.2.1).trans ?_
    rcases hl : st.lastDataTime with - | prev
    · rfl
    · dsimp only
      split <;> rfl

/-- C8: before any ingest the data rate is 1.0; on an ingest for the
selected tag the rate becomes `(len(values) / 4) / elapsed` when a
previous batch exists and the elapsed time is positive, and is left
unchanged otherwise; in particular two ingests of 40 values 0.5 s apart
yield 20.0 samples/sec. -/
theorem data_rate_update_spec :
    (∀ p : String, (initState p).dataRate = 1) ∧
    (∀ (st : TVState) (tag : String) (vs : List PyFloat) (now : ℚ) (iso : String),
      st.mqttTag = some tag →
      ((∀ prev : ℚ, st.lastDataTime = some prev → 0 < now - prev →
          (on_data_received st tag vs now iso).dataRate =
            ((vs.length : ℚ) / 4) / (now - prev)) ∧
       (st.lastDataTime = none →
          (on_data_received st tag vs now iso).dataRate = st.dataRate) ∧
       (∀ prev : ℚ, st.lastDataTime = some prev → now - prev ≤ 0 →
          (on_data_received st tag vs now iso).dataRate = st.dataRate))) ∧
    (on_data_received (on_data_received
        { projectName := "p", mqttTag := some "tg", b0 := ⟨[], 4096⟩,
          b1 := ⟨[], 4096⟩, b2 := ⟨[], 4096⟩, b3 := ⟨[], 4096⟩,
          ts := ⟨[], 4096 * 4⟩, dataRate := 1, lastDataTime := none }
        "tg" (List.replicate 40 (PyFloat.num 0)) 0 "t0")
        "tg" (List.replicate 40 (PyFloat.num 0)) (1 / 2) "t1").dataRate = 20 := by
  refine ⟨fun p => rfl, ?_, ?_⟩
  · intro st tag vs now iso htag
    refine ⟨?_, ?_, ?_⟩
    · intro prev hprev h0
      rw [on_data_received_rate st tag vs now iso htag, hprev]
      dsimp only
      rw [if_pos h0]
      ring
    · intro hnone
      rw [on_data_received_rate st tag vs now iso htag, hnone]
    · intro prev hprev h0
      rw [on_data_received_rate st tag vs now iso htag, hprev]
      dsimp only
      rw [if_neg (by push_neg; linarith)]
  · have h1f := on_data_received_fields
      { projectName := "p", mqttTag := some "tg", b0 := ⟨[], 4096⟩,
        b1 := ⟨[], 4096⟩, b2 := ⟨[], 4096⟩, b3 := ⟨[], 4096⟩,
        ts := ⟨[], 4096 * 4⟩, dataRate := 1, lastDataTime := none }
      "tg" (List.replicate 40 (PyFloat.num 0)) 0 "t0" rfl
    rw [on_data_received_rate _ "tg" (List.replicate 40 (PyFloat.num 0)) (1 / 2) "t1"
      (h1f.2.trans rfl), h1f.1]
    dsimp only
    rw [if_pos (by norm_num)]
    rw [List.length_replicate]
    norm_num

/-- Witness for C8: a single matching ingest half a second after a
recorded batch sets the rate to `(40 / 4) / 0.5`. -/
theorem data_rate_update_spec_witness :
    (on_data_received
        { projectName := "p", mqttTag := some "tg", b0 := ⟨[], 4096⟩,
          b1 := ⟨[], 4096⟩, b2 := ⟨[], 4096⟩, b3 := ⟨[], 4096⟩,
          ts := ⟨[], 4096 * 4⟩, dataRate := 1, lastDataTime := some 0 }
        "tg" (List.replicate 40 (PyFloat.num 0)) (1 / 2) "t1").dataRate =
      (((List.replicate 40 (PyFloat.num 0)).length : ℚ) / 4) / (1 / 2 - 0) :=
  ((data_rate_update_spec.2.1 _ "tg" (List.replicate 40 (PyFloat.num 0)) (1 / 2) "t1"
      rfl).1 0 rfl (by norm_num))

/-! ### Claim C1 -/

set_option maxRecDepth 8000 in
/-- C1 counterexample: with current capacity 100 (a value the Buffer
Sizer produces) and a batch of 500 values, the loop bound in the source
is the constant `4096 * 4`, not `capacity * 4 = 400`: channel 0 ends up
holding the 100 most recent of the 122 consumed values (positions
98, 102, …, 494), not the 97 values at positions `10 + 4k` with
`10 + 4k + 3 < 400` that the claim predicts. -/
theorem demux_capacity_claim_false :
    (split_and_store_values
        { projectName := "p", mqttTag := some "t",
          b0 := ⟨[], 100⟩, b1 := ⟨[], 100⟩, b2 := ⟨[], 100⟩, b3 := ⟨[], 100⟩,
          ts := ⟨[], 400⟩, dataRate := 1, lastDataTime := none }
        ((List.range 500).map (fun n => PyFloat.num n)) "t0").b0.data ≠
      claimDemuxChannel ((List.range 500).map (fun n => PyFloat.num n)) 100 0 := by
  have h := (split_and_store_values_spec
    { projectName := "p", mqttTag := some "t",
      b0 := ⟨[], 100⟩, b1 := ⟨[], 100⟩, b2 := ⟨[], 100⟩, b3 := ⟨[], 100⟩,
      ts := ⟨[], 400⟩, dataRate := 1, lastDataTime := none }
    ((List.range 500).map (fun n => PyFloat.num n)) "t0"
    (Nat.zero_le _) (Nat.zero_le _) (Nat.zero_le _) (Nat.zero_le _) (Nat.zero_le _)).1
  rw [congrArg RingBuf.data h]
  decide

/-- C1 (amended): channel `c` receives the values at positions `i + c`
for the group starts `i` in `range(10, min(L, 4096 * 4), 4)` passing the
`i + 3 < L` guard — the loop's stop bound is the constant `4096 * 4`
(the initial capacity × 4), not the current capacity × 4 — in increasing
order of `i`, subject to ring eviction keeping the most recent `cap` of
the old-plus-received entries; each consumed group appends the same
timestamp four times to the timestamp ring, with the same eviction at its
own capacity. -/
theorem demux_positions_amended (st : TVState) (vs : List PyFloat) (t : String)
    (h0 : st.b0.data.length ≤ st.b0.cap) (h1 : st.b1.data.length ≤ st.b1.cap)
    (h2 : st.b2.data.length ≤ st.b2.cap) (h3 : st.b3.data.length ≤ st.b3.cap)
    (hts : st.ts.data.length ≤ st.ts.cap) :
    (split_and_store_values st vs t).b0.data =
      lastN st.b0.cap (st.b0.data ++
        (validStarts vs.length).map (fun i => vs.getD i PyFloat.nan)) ∧
    (split_and_store_values st vs t).b1.data =
      lastN st.b1.cap (st.b1.data ++
        (validStarts vs.length).map (fun i => vs.getD (i + 1) PyFloat.nan)) ∧
    (split_and_store_values st vs t).b2.data =
      lastN st.b2.cap (st.b2.data ++
        (validStarts vs.length).map (fun i => vs.getD (i + 2) PyFloat.nan)) ∧
    (split_and_store_values st vs t).b3.data =
      lastN st.b3.cap (st.b3.data ++
        (validStarts vs.length).map (fun i => vs.getD (i + 3) PyFloat.nan)) ∧
    (split_and_store_values st vs t).ts.data =
      lastN st.ts.cap (st.ts.data ++
        (validStarts vs.length).flatMap (fun _ => [t, t, t, t])) ∧
    validStarts vs.length =
      (pyRange 10 (min vs.length (4096 * 4)) 4).filter (fun i => i + 3 < vs.length) := by
  obtain ⟨f0, f1, f2, f3, fts, -⟩ := split_and_store_values_spec st vs t h0 h1 h2 h3 hts
  exact ⟨congrArg RingBuf.data f0, congrArg RingBuf.data f1, congrArg RingBuf.data f2,
    congrArg RingBuf.data f3, congrArg RingBuf.data fts, rfl⟩

/-- Witness for C1 (amended): a batch of 14 values ingested into the
fresh state reaches exactly one group (start index 10). -/
theorem demux_positions_amended_witness :
    (split_and_store_values (initState "p")
        ((List.range 14).map (fun n => PyFloat.num n)) "tz").b0.data =
      lastN (initState "p").b0.cap ((initState "p").b0.data ++
        (validStarts ((List.range 14).map (fun n => PyFloat.num n)).length).map
          (fun i => ((List.range 14).map (fun n => PyFloat.num n)).getD i PyFloat.nan)) :=
  (demux_positions_amended (initState "p") ((List.range 14).map (fun n => PyFloat.num n))
    "tz" (Nat.zero_le _) (Nat.zero_le _) (Nat.zero_le _) (Nat.zero_le _)
    (Nat.zero_le _)).1

/-! ### Claim C5 -/

theorem foldl_min_le_foldl_max : ∀ (t : List ℚ) (h1 h2 : ℚ), h1 ≤ h2 →
    t.foldl min h1 ≤ t.foldl max h2
  | [], _, _, h => h
  | a :: t, h1, h2, h =>
    foldl_min_le_foldl_max t (min h1 a) (max h2 a)
      ((min_le_left h1 a).trans (h.trans (le_max_left h2 a)))

theorem listMin_le_listMax {l : List ℚ} (h : l ≠ []) : listMin l ≤ listMax l := by
  cases l with
  | nil => exact absurd rfl h
  | cons a t => exact foldl_min_le_foldl_max t a a le_rfl

/-- Core properties of the padding/step/tick computation of
`generate_y_ticks` on the non-degenerate branch. -/
theorem yticks_core (ymax0 ymin0 : ℚ) (hmm : ymin0 ≤ ymax0) :
    let padding := if ymax0 ≠ ymin0 then (ymax0 - ymin0) * (1 / 10) else 5000
    let ymax := ymax0 + padding
    let ymin := ymin0 - padding
    let step : ℚ := ((⌈(max ((ymax - ymin) / 10) 1) / 500⌉ : ℤ) : ℚ) * 500
    let t0 : ℚ := ((⌊ymin / step⌋ : ℤ) : ℚ) * step
    tickLoop ymax step t0 =
      (List.range ((⌊(ymax - t0) / step⌋).toNat + 1)).map
        (fun k : ℕ => t0 + (k : ℚ) * step) ∧
    List.Sorted (· < ·) (tickLoop ymax step t0) ∧
    (tickLoop ymax step t0).length ≤ 12 := by
  intro padding ymax ymin step t0
  have hpad : 0 ≤ padding := by
    unfold_let padding
    split
    · exact mul_nonneg (sub_nonneg.mpr hmm) (by norm_num)
    · norm_num
  have hymm : ymin ≤ ymax := by
    unfold_let ymax ymin
    linarith
  have hsp : (0 : ℚ) < step := by
    unfold_let step
    have hm : (1 : ℚ) ≤ max ((ymax - ymin) / 10) 1 := le_max_right _ _
    have h1 : (0 : ℤ) < ⌈(max ((ymax - ymin) / 10) 1) / 500⌉ :=
      Int.ceil_pos.mpr (div_pos (by linarith) (by norm_num))
    have h2 : (0 : ℚ) < ((⌈(max ((ymax - ymin) / 10) 1) / 500⌉ : ℤ) : ℚ) := by
      exact_mod_cast h1
    exact mul_pos h2 (by norm_num)
  have hstep_ge : max ((ymax - ymin) / 10) 1 ≤ step := by
    unfold_let step
    have h1 := Int.le_ceil ((max ((ymax - ymin) / 10) 1) / 500)
    have h2 := (div_le_iff (show (0 : ℚ) < 500 from by norm_num)).mp h1
    linarith
  have ht0le : t0 ≤ ymin := by
    unfold_let t0
    have h3 := Int.floor_le (ymin / step)
    have h4 := mul_le_mul_of_nonneg_right h3 hsp.le
    rw [div_mul_cancel₀ _ (ne_of_gt hsp)] at h4
    exact h4
  have ht0gt : ymin - step < t0 := by
    unfold_let t0
    have h5 := Int.lt_floor_add_one (ymin / step)
    have h6 := mul_lt_mul_of_pos_right h5 hsp
    rw [add_mul, one_mul, div_mul_cancel₀ _ (ne_of_gt hsp)] at h6
    linarith
  clear_value t0 step ymin ymax padding
  have hcle : t0 ≤ ymax := ht0le.trans hymm
  have hr10 : ymax - ymin ≤ 10 * step := by
    have h7 := (le_max_left ((ymax - ymin) / 10) 1).trans hstep_ge
    linarith
  have hclosed := tickLoop_closed ymax step hsp _ t0 hcle rfl
  refine ⟨hclosed, ?_, ?_⟩
  · rw [hclosed]
    exact List.Pairwise.map _
      (fun a b hab => add_lt_add_left
        (mul_lt_mul_of_pos_right (by exact_mod_cast hab) hsp) t0)
      (List.pairwise_lt_range _)
  · rw [hclosed, List.length_map, List.length_range]
    have hx : (ymax - t0) / step < 11 := by
      rw [div_lt_iff hsp]
      linarith
    have hfl : ⌊(ymax - t0) / step⌋ < 11 := Int.floor_lt.mpr (by exact_mod_cast hx)
    omega

/-- C5: `generate_y_ticks` returns the fixed fallback sequence on an
empty or non-finite input; on a nonempty all-finite input it pads
min/max by 10% of the range (5000 when min = max), rounds
`max(range / 10, 1)` up to a multiple of 500, and emits ticks from
`floor(min / step) × step` stepping by `step` while ≤ the padded max;
the ticks are strictly increasing and at most 12. -/
theorem generate_y_ticks_spec (values : List PyFloat) :
    ((values = [] ∨ ∃ v ∈ values, v.isFinite = false) →
      generate_y_ticks values = fallbackTicks) ∧
    (values ≠ [] → (∀ v ∈ values, v.isFinite = true) →
      (let qs := values.map PyFloat.toRat
       let ymax0 := listMax qs
       let ymin0 := listMin qs
       let padding := if ymax0 ≠ ymin0 then (ymax0 - ymin0) * (1 / 10) else 5000
       let ymax := ymax0 + padding
       let ymin := ymin0 - padding
       let step : ℚ := ((⌈(max ((ymax - ymin) / 10) 1) / 500⌉ : ℤ) : ℚ) * 500
       let t0 : ℚ := ((⌊ymin / step⌋ : ℤ) : ℚ) * step
       generate_y_ticks values =
         (List.range ((⌊(ymax - t0) / step⌋).toNat + 1)).map
           (fun k : ℕ => t0 + (k : ℚ) * step)) ∧
      List.Sorted (· < ·) (generate_y_ticks values) ∧
      (generate_y_ticks values).length ≤ 12) := by
  constructor
  · intro h
    have hcond : values = [] ∨ ¬ values.all PyFloat.isFinite = true := by
      rcases h with he | ⟨v, hv, hfv⟩
      · exact Or.inl he
      · refine Or.inr fun hall => ?_
        have h2 := List.all_eq_true.mp hall v hv
        rw [hfv] at h2
        exact Bool.false_ne_true h2
    unfold generate_y_ticks
    rw [if_pos hcond]
  · intro hne hfin
    have hcond : ¬ (values = [] ∨ ¬ values.all PyFloat.isFinite = true) := by
      push_neg
      exact ⟨hne, List.all_eq_true.mpr hfin⟩
    have hmm : listMin (values.map PyFloat.toRat) ≤ listMax (values.map PyFloat.toRat) :=
      listMin_le_listMax (fun hmap => hne (List.map_eq_nil.mp hmap))
    obtain ⟨hc1, hc2, hc3⟩ :=
      yticks_core (listMax (values.map PyFloat.toRat))
        (listMin (values.map PyFloat.toRat)) hmm
    refine ⟨?_, ?_, ?_⟩
    · unfold generate_y_ticks
      rw [if_neg hcond]
      exact hc1
    · unfold generate_y_ticks
      rw [if_neg hcond]
      exact hc2
    · unfold generate_y_ticks
      rw [if_neg hcond]
      exact hc3

/-- Witness for C5: the empty input yields the fallback sequence, and the
single-value input `[100]` yields a sorted tick list of at most 12
entries. -/
theorem generate_y_ticks_spec_witness :
    generate_y_ticks [] = fallbackTicks ∧
    List.Sorted (· < ·) (generate_y_ticks [PyFloat.num 100]) ∧
    (generate_y_ticks [PyFloat.num 100]).length ≤ 12 := by
  refine ⟨(generate_y_ticks_spec []).1 (Or.inl rfl), ?_, ?_⟩
  · exact ((generate_y_ticks_spec [PyFloat.num 100]).2 (by decide) (by decide)).2.1
  · exact ((generate_y_ticks_spec [PyFloat.num 100]).2 (by decide) (by decide)).2.2

/-! ### Plot-refresh branch extraction -/

/-- Evaluation rule for `samples_per_window` on nonnegative products. -/
theorem samples_per_window_eval {r w : ℚ} {z : ℤ} (h0 : 0 ≤ r * w)
    (hf : ⌊r * w⌋ = z) (cbs : ℕ) :
    samples_per_window r w cbs = (max (min (cbs : ℤ) z) 2).toNat := by
  unfold samples_per_window pyInt
  rw [if_pos h0, hf]

theorem npLinspace10_head (a b : ℚ) : (npLinspace a b 10).head? = some a := by
  show ((List.range 10).map (fun i : ℕ => a + (i : ℚ) * (b - a) / ((10 : ℚ) - 1))).head? =
    some a
  rw [show List.range 10 = 0 :: [1, 2, 3, 4, 5, 6, 7, 8, 9] from by decide,
    List.map_cons, List.head?_cons]
  norm_num

/-- When a channel's window is nonempty and all-finite and the last
window timestamp parses, the per-channel refresh succeeds and labels the
10 x-ticks by offsetting the parsed instant by
`tick * window_width - window_width` seconds (`tick` being the absolute
tick coordinate). -/
theorem update_step_labels (st : TVState) (xlim : ℚ × ℚ) (buf : RingBuf PyFloat)
    (cbs : ℕ) (sG : String) (dt : ℤ)
    (hwv : lastN (samples_per_window st.dataRate (xlim.2 - xlim.1) cbs) buf.data ≠ [])
    (hfin : (lastN (samples_per_window st.dataRate (xlim.2 - xlim.1) cbs)
      buf.data).all PyFloat.isFinite = true)
    (hlast : (every4th (lastN (samples_per_window st.dataRate (xlim.2 - xlim.1) cbs * 4)
      st.ts.data)).getLast? = some sG)
    (hparse : parseTimestamp sG = some dt) :
    labelsOf (update_step st xlim buf cbs) =
      some (some ((npLinspace xlim.1 xlim.2 10).map
        (fun tick => formatHMSms (addSeconds dt
          (tick * (xlim.2 - xlim.1) - (xlim.2 - xlim.1)))))) := by
  unfold update_step
  dsimp only
  rw [if_neg (by push_neg; exact ⟨hwv, hfin⟩), hlast]
  dsimp only
  rw [hparse]
  rfl

/-- When a channel's window is nonempty and all-finite but the last
window timestamp does not parse, the per-channel refresh raises. -/
theorem update_step_error (st : TVState) (xlim : ℚ × ℚ) (buf : RingBuf PyFloat)
    (cbs : ℕ) (sG : String)
    (hwv : lastN (samples_per_window st.dataRate (xlim.2 - xlim.1) cbs) buf.data ≠ [])
    (hfin : (lastN (samples_per_window st.dataRate (xlim.2 - xlim.1) cbs)
      buf.data).all PyFloat.isFinite = true)
    (hlast : (every4th (lastN (samples_per_window st.dataRate (xlim.2 - xlim.1) cbs * 4)
      st.ts.data)).getLast? = some sG)
    (hbad : parseTimestamp sG = none) :
    update_step st xlim buf cbs = Except.error strptimeErr := by
  unfold update_step
  dsimp only
  rw [if_neg (by push_neg; exact ⟨hwv, hfin⟩), hlast]
  dsimp only
  rw [hbad]

/-! ### Claim C6 -/

/-- C6 counterexample: on a refresh of a channel whose axis has been
panned/zoomed to x-limits (5, 7), the source labels the ticks by
offsetting the parsed timestamp by `tick * width - width` seconds with
`tick` the absolute coordinate (first tick: +8 s), not by the claim's
fractional-position formula (first tick: −2 s), so the produced labels
differ from the claim's. -/
theorem xtick_fraction_claim_false :
    labelsOf (update_step
        { projectName := "p", mqttTag := some "t",
          b0 := ⟨[PyFloat.num 1, PyFloat.num 2], 100⟩,
          b1 := ⟨[PyFloat.num 1, PyFloat.num 2], 100⟩,
          b2 := ⟨[PyFloat.num 1, PyFloat.num 2], 100⟩,
          b3 := ⟨[PyFloat.num 1, PyFloat.num 2], 100⟩,
          ts := ⟨["2024-05-05T01:02:03.500000", "2024-05-05T01:02:03.500000",
                  "2024-05-05T01:02:03.500000", "2024-05-05T01:02:03.500000",
                  "2024-05-05T01:02:03.500000", "2024-05-05T01:02:03.500000",
                  "2024-05-05T01:02:03.500000", "2024-05-05T01:02:03.500000"], 400⟩,
          dataRate := 1, lastDataTime := none }
        (5, 7) ⟨[PyFloat.num 1, PyFloat.num 2], 100⟩ 2) ≠
      some (some (claimXTickLabels (5, 7) 63850467723500000)) := by
  have hspw : samples_per_window (1 : ℚ) (7 - 5) 2 = 2 := by
    rw [samples_per_window_eval (by norm_num)
      (show ⌊(1 : ℚ) * (7 - 5)⌋ = 2 from by norm_num) 2]
    rfl
  have hwv : lastN (samples_per_window (1 : ℚ) (7 - 5) 2)
      [PyFloat.num 1, PyFloat.num 2] ≠ [] := by
    rw [hspw]
    decide
  have hfin : (lastN (samples_per_window (1 : ℚ) (7 - 5) 2)
      [PyFloat.num 1, PyFloat.num 2]).all PyFloat.isFinite = true := by
    rw [hspw]
    decide
  have hlast : (every4th (lastN (samples_per_window (1 : ℚ) (7 - 5) 2 * 4)
      ["2024-05-05T01:02:03.500000", "2024-05-05T01:02:03.500000",
       "2024-05-05T01:02:03.500000", "2024-05-05T01:02:03.500000",
       "2024-05-05T01:02:03.500000", "2024-05-05T01:02:03.500000",
       "2024-05-05T01:02:03.500000", "2024-05-05T01:02:03.500000"])).getLast? =
      some "2024-05-05T01:02:03.500000" := by
    rw [hspw]
    simp [lastN, every4th_cons, every4th_nil]
  have hparse : parseTimestamp "2024-05-05T01:02:03.500000" =
      some 63850467723500000 := by
    decide
  have hlbl := update_step_labels
    { projectName := "p", mqttTag := some "t",
      b0 := ⟨[PyFloat.num 1, PyFloat.num 2], 100⟩,
      b1 := ⟨[PyFloat.num 1, PyFloat.num 2], 100⟩,
      b2 := ⟨[PyFloat.num 1, PyFloat.num 2], 100⟩,
      b3 := ⟨[PyFloat.num 1, PyFloat.num 2], 100⟩,
      ts := ⟨["2024-05-05T01:02:03.500000", "2024-05-05T01:02:03.500000",
              "2024-05-05T01:02:03.500000", "2024-05-05T01:02:03.500000",
              "2024-05-05T01:02:03.500000", "2024-05-05T01:02:03.500000",
              "2024-05-05T01:02:03.500000", "2024-05-05T01:02:03.500000"], 400⟩,
      dataRate := 1, lastDataTime := none }
    (5, 7) ⟨[PyFloat.num 1, PyFloat.num 2], 100⟩ 2
    "2024-05-05T01:02:03.500000" 63850467723500000 hwv hfin hlast hparse
  rw [hlbl]
  intro heq
  have h2 : (npLinspace (5 : ℚ) 7 10).map
      (fun tick => formatHMSms (addSeconds 63850467723500000
        (tick * (((5, 7) : ℚ × ℚ).2 - ((5, 7) : ℚ × ℚ).1) -
          (((5, 7) : ℚ × ℚ).2 - ((5, 7) : ℚ × ℚ).1)))) =
      claimXTickLabels (5, 7) 63850467723500000 := by
    have h1 := Option.some.inj (Option.some.inj heq)
    exact h1
  unfold claimXTickLabels at h2
  dsimp only at h2
  have h3 := congrArg List.head? h2
  rw [List.head?_map, List.head?_map, npLinspace10_head, Option.map_some',
    Option.map_some'] at h3
  have h4 := Option.some.inj h3
  rw [show (5 : ℚ) * (((5, 7) : ℚ × ℚ).2 - ((5, 7) : ℚ × ℚ).1) -
      (((5, 7) : ℚ × ℚ).2 - ((5, 7) : ℚ × ℚ).1) = 8 from by norm_num,
    show ((5 : ℚ) - ((5, 7) : ℚ × ℚ).1) / (((5, 7) : ℚ × ℚ).2 - ((5, 7) : ℚ × ℚ).1) *
      (((5, 7) : ℚ × ℚ).2 - ((5, 7) : ℚ × ℚ).1) - (((5, 7) : ℚ × ℚ).2 -
      ((5, 7) : ℚ × ℚ).1) = -2 from by norm_num] at h4
  unfold addSeconds at h4
  rw [show round ((8 : ℚ) * 1000000) = 8000000 from by norm_num [round_eq],
    show round ((-2 : ℚ) * 1000000) = -2000000 from by norm_num [round_eq]] at h4
  exact absurd h4 (by decide)

/-- C6 (amended): on every per-channel refresh whose window is nonempty
and all-finite and whose last window timestamp parses to the instant
`dt`, the 10 evenly spaced x-ticks are labelled `HH:MM:SS:mmm` by
offsetting `dt` by `(tick_value × window_width − window_width)` seconds,
where `tick_value` is the tick's absolute x-coordinate (this coincides
with the claim's fractional position only when the x-limits are the
default (0, 1)). -/
theorem xtick_labels_amended (st : TVState) (xlim : ℚ × ℚ) (buf : RingBuf PyFloat)
    (cbs : ℕ) (sG : String) (dt : ℤ)
    (hwv : lastN (samples_per_window st.dataRate (xlim.2 - xlim.1) cbs) buf.data ≠ [])
    (hfin : (lastN (samples_per_window st.dataRate (xlim.2 - xlim.1) cbs)
      buf.data).all PyFloat.isFinite = true)
    (hlast : (every4th (lastN (samples_per_window st.dataRate (xlim.2 - xlim.1) cbs * 4)
      st.ts.data)).getLast? = some sG)
    (hparse : parseTimestamp sG = some dt) :
    labelsOf (update_step st xlim buf cbs) =
      some (some ((npLinspace xlim.1 xlim.2 10).map
        (fun tick => formatHMSms (addSeconds dt
          (tick * (xlim.2 - xlim.1) - (xlim.2 - xlim.1)))))) ∧
    (npLinspace xlim.1 xlim.2 10).length = 10 := by
  refine ⟨update_step_labels st xlim buf cbs sG dt hwv hfin hlast hparse, ?_⟩
  show ((List.range 10).map
    (fun i : ℕ => xlim.1 + (i : ℚ) * (xlim.2 - xlim.1) / ((10 : ℚ) - 1))).length = 10
  simp

/-- Witness for C6 (amended) at the default x-limits (0, 1). -/
theorem xtick_labels_amended_witness :
    labelsOf (update_step
        { projectName := "p", mqttTag := some "t",
          b0 := ⟨[PyFloat.num 1, PyFloat.num 2], 100⟩,
          b1 := ⟨[PyFloat.num 1, PyFloat.num 2], 100⟩,
          b2 := ⟨[PyFloat.num 1, PyFloat.num 2], 100⟩,
          b3 := ⟨[PyFloat.num 1, PyFloat.num 2], 100⟩,
          ts := ⟨["2024-05-05T01:02:03.500000", "2024-05-05T01:02:03.500000",
                  "2024-05-05T01:02:03.500000", "2024-05-05T01:02:03.500000",
                  "2024-05-05T01:02:03.500000", "2024-05-05T01:02:03.500000",
                  "2024-05-05T01:02:03.500000", "2024-05-05T01:02:03.500000"], 400⟩,
          dataRate := 1, lastDataTime := none }
        (0, 1) ⟨[PyFloat.num 1, PyFloat.num 2], 100⟩ 2) =
      some (some ((npLinspace (0 : ℚ) 1 10).map
        (fun tick => formatHMSms (addSeconds 63850467723500000
          (tick * ((1 : ℚ) - 0) - ((1 : ℚ) - 0)))))) ∧
    (npLinspace (0 : ℚ) 1 10).length = 10 := by
  have hspw : samples_per_window (1 : ℚ) (1 - 0) 2 = 2 := by
    rw [samples_per_window_eval (by norm_num)
      (show ⌊(1 : ℚ) * (1 - 0)⌋ = 1 from by norm_num) 2]
    rfl
  have hwv : lastN (samples_per_window (1 : ℚ) (1 - 0) 2)
      [PyFloat.num 1, PyFloat.num 2] ≠ [] := by
    rw [hspw]
    decide
  have hfin : (lastN (samples_per_window (1 : ℚ) (1 - 0) 2)
      [PyFloat.num 1, PyFloat.num 2]).all PyFloat.isFinite = true := by
    rw [hspw]
    decide
  have hlast : (every4th (lastN (samples_per_window (1 : ℚ) (1 - 0) 2 * 4)
      ["2024-05-05T01:02:03.500000", "2024-05-05T01:02:03.500000",
       "2024-05-05T01:02:03.500000", "2024-05-05T01:02:03.500000",
       "2024-05-05T01:02:03.500000", "2024-05-05T01:02:03.500000",
       "2024-05-05T01:02:03.500000", "2024-05-05T01:02:03.500000"])).getLast? =
      some "2024-05-05T01:02:03.500000" := by
    rw [hspw]
    simp [lastN, every4th_cons, every4th_nil]
  exact xtick_labels_amended
    { projectName := "p", mqttTag := some "t",
      b0 := ⟨[PyFloat.num 1, PyFloat.num 2], 100⟩,
      b1 := ⟨[PyFloat.num 1, PyFloat.num 2], 100⟩,
      b2 := ⟨[PyFloat.num 1, PyFloat.num 2], 100⟩,
      b3 := ⟨[PyFloat.num 1, PyFloat.num 2], 100⟩,
      ts := ⟨["2024-05-05T01:02:03.500000", "2024-05-05T01:02:03.500000",
              "2024-05-05T01:02:03.500000", "2024-05-05T01:02:03.500000",
              "2024-05-05T01:02:03.500000", "2024-05-05T01:02:03.500000",
              "2024-05-05T01:02:03.500000", "2024-05-05T01:02:03.500000"], 400⟩,
      dataRate := 1, lastDataTime := none }
    (0, 1) ⟨[PyFloat.num 1, PyFloat.num 2], 100⟩ 2
    "2024-05-05T01:02:03.500000" 63850467723500000 hwv hfin hlast (by decide)

/-! ### Claim C9 -/

/-- C9: when the most recent timestamp-ring entry is not a well-formed
`%Y-%m-%dT%H:%M:%S.%f` string, a plot refresh with at least 2 finite
buffered samples (timestamps 4-replicated per sample as the ingest path
writes them, and no resize pending) raises the `strptime` parse failure,
which propagates out of `update_time_view_plot` — nothing in the module
catches it. -/
theorem malformed_timestamp_raises (st : TVState) (xl0 xl1 xl2 xl3 : ℚ × ℚ)
    (gs : List String) (sBad : String)
    (hproj : st.projectName ≠ "") (htag : st.mqttTag ≠ none)
    (h2 : 2 ≤ st.b0.data.length)
    (hfin : ∀ v ∈ st.b0.data, v.isFinite = true)
    (hts : st.ts.data = gs.flatMap (fun s => [s, s, s, s]))
    (hgl : gs.length = st.b0.data.length)
    (hnr : adjust_buffer_size st (xl0.2 - xl0.1) = st)
    (hlast : gs.getLast? = some sBad)
    (hbad : parseTimestamp sBad = none) :
    update_time_view_plot st xl0 xl1 xl2 xl3 = Except.error strptimeErr := by
  have hspw2 : 2 ≤ samples_per_window st.dataRate (xl0.2 - xl0.1) st.b0.data.length := by
    unfold samples_per_window
    omega
  have hspwle : samples_per_window st.dataRate (xl0.2 - xl0.1) st.b0.data.length ≤
      st.b0.data.length := by
    unfold samples_per_window
    omega
  have hwv : lastN (samples_per_window st.dataRate (xl0.2 - xl0.1) st.b0.data.length)
      st.b0.data ≠ [] := by
    intro hnil
    have hlen := lastN_length
      (samples_per_window st.dataRate (xl0.2 - xl0.1) st.b0.data.length) st.b0.data
    rw [hnil] at hlen
    simp only [List.length_nil] at hlen
    omega
  have hfin' : (lastN (samples_per_window st.dataRate (xl0.2 - xl0.1)
      st.b0.data.length) st.b0.data).all PyFloat.isFinite = true :=
    List.all_eq_true.mpr (fun v hv => hfin v (lastN_subset _ _ hv))
  have hlast' : (every4th (lastN (samples_per_window st.dataRate (xl0.2 - xl0.1)
      st.b0.data.length * 4) st.ts.data)).getLast? = some sBad := by
    rw [hts, window_ts_last gs _ (by omega) (by omega), hlast]
  have herr := update_step_error st xl0 st.b0 st.b0.data.length sBad hwv hfin' hlast' hbad
  unfold update_time_view_plot
  rw [if_neg (by push_neg; exact ⟨hproj, htag⟩), if_neg (by omega)]
  dsimp only
  rw [hnr, herr]
  rfl

/-- Witness for C9: a state holding two finite samples per channel and a
4-replicated unparseable timestamp ring raises on refresh. -/
theorem malformed_timestamp_raises_witness :
    update_time_view_plot
        { projectName := "p", mqttTag := some "t",
          b0 := ⟨[PyFloat.num 1, PyFloat.num 2], 100⟩,
          b1 := ⟨[PyFloat.num 1, PyFloat.num 2], 100⟩,
          b2 := ⟨[PyFloat.num 1, PyFloat.num 2], 100⟩,
          b3 := ⟨[PyFloat.num 1, PyFloat.num 2], 100⟩,
          ts := ⟨["bad", "bad", "bad", "bad", "bad", "bad", "bad", "bad"], 400⟩,
          dataRate := 1, lastDataTime := none }
        (0, 1) (0, 1) (0, 1) (0, 1) = Except.error strptimeErr := by
  have htar : targetBufferSize (1 : ℚ) (1 - 0) = 100 := by
    rw [targetBufferSize_eval (by norm_num)
      (show ⌊(1 : ℚ) * (1 - 0) * 2⌋ = 2 from by norm_num)]
    rfl
  have hnr : adjust_buffer_size
      { projectName := "p", mqttTag := some "t",
        b0 := ⟨[PyFloat.num 1, PyFloat.num 2], 100⟩,
        b1 := ⟨[PyFloat.num 1, PyFloat.num 2], 100⟩,
        b2 := ⟨[PyFloat.num 1, PyFloat.num 2], 100⟩,
        b3 := ⟨[PyFloat.num 1, PyFloat.num 2], 100⟩,
        ts := ⟨["bad", "bad", "bad", "bad", "bad", "bad", "bad", "bad"], 400⟩,
        dataRate := 1, lastDataTime := none } ((1 : ℚ) - 0) =
      { projectName := "p", mqttTag := some "t",
        b0 := ⟨[PyFloat.num 1, PyFloat.num 2], 100⟩,
        b1 := ⟨[PyFloat.num 1, PyFloat.num 2], 100⟩,
        b2 := ⟨[PyFloat.num 1, PyFloat.num 2], 100⟩,
        b3 := ⟨[PyFloat.num 1, PyFloat.num 2], 100⟩,
        ts := ⟨["bad", "bad", "bad", "bad", "bad", "bad", "bad", "bad"], 400⟩,
        dataRate := 1, lastDataTime := none } := by
    unfold adjust_buffer_size
    rw [if_pos (by norm_num), if_neg (fun hh => hh htar)]
  exact malformed_timestamp_raises _ (0, 1) (0, 1) (0, 1) (0, 1) ["bad", "bad"] "bad"
    (by decide) (by decide) (by decide) (by decide) (by decide) (by decide)
    hnr (by decide) (by decide)
